import Mathlib

/-!
# gozilla: the request-serving pipeline and the audit log

A shallow embedding of `codec.go`, `error.go`, `server.go`, `json_codec.go`,
`form_codec.go`, `options.go` and `log.go`, followed by the properties of the
pipeline that are checked against it.

Conventions of the embedding

* A Go `string` is a `Str`, a list of characters. Every separator the code
  looks for (`/`, `.`, `;`, newline) is a single ASCII byte, so cutting at a
  character and cutting at a byte agree.
* An `http.ResponseWriter` is the list of calls that took effect on it, in
  order; `Code` and `Body` read the status and the body that a recording
  writer reports for such a list (the first `WriteHeader` wins, a `Write`
  before any `WriteHeader` implies 200).
* A value held in an `interface{}` is a `Value`, a tree of the values
  `encoding/json` can encode; the encoder's error result, which the source
  drops, does not arise for them. `json.Marshal` and `json.Unmarshal` are the
  encoder and decoder of `encoding/json` on these trees.
* What the other Go libraries compute (`strings.ToLower`, the decoding of a
  request into a typed argument, `validator.v9`, `runtime.Stack`) comes in
  through `Lib`.
* A bound method is the function from its context and argument to what the
  call does: return `(reply, error)` or panic with a value (never the nil
  value). What a method writes to the response itself, through its context,
  is not followed.
* A writer behaves as the writers of `net/http` and `httptest` do: a
  `WriteHeader` with a status outside 100..999 on a writer whose header is
  not yet written panics and writes nothing. A function that can panic this
  way comes as a pair, the writer afterwards and the panic (`f` and
  `f.panic`).
* A registered codec is one of the two codecs of the package, never nil.
-/

namespace Gozilla

/-- A Go string. -/
abbrev Str := List Char

/-! ## The pieces of the Go library used by the sources -/

/-- Go `strings.Split(s, sep)` for a one-byte separator: the pieces between
the occurrences of `sep`, always at least one piece. -/
def strings.Split (s : Str) (sep : Char) : List Str :=
  List.splitOn sep s

/-- Go `strings.Index(s, sep)` for a one-byte separator: the position of the
first occurrence, `-1` when there is none. -/
def strings.Index (s : Str) (sep : Char) : Int :=
  if sep ∈ s then (List.indexOf sep s : Nat) else -1

/-- Go `strings.Replace(s, old, new, -1)` for one-byte `old` and `new`. -/
def strings.Replace (s : Str) (old new : Char) : Str :=
  s.map (fun c => if c = old then new else c)

/-- A value carried in an `interface{}`: `nil`, or a value that JSON can
represent. -/
inductive Value where
  | nil
  | bool (b : Bool)
  | number (n : Int)
  | string (s : Str)
  | array (xs : List Value)
  | object (fields : List (Str × Value))

/-! ## encoding/json, the encoder -/

/-- The decimal digits of `n`, most significant first; `fuel` bounds their
number. -/
def json.decimal : Nat → Nat → Str
  | 0, _ => []
  | fuel + 1, n =>
    if n < 10 then [Nat.digitChar n] else json.decimal fuel (n / 10) ++ [Nat.digitChar (n % 10)]

/-- An integer in decimal, as `strconv.AppendInt` writes it. -/
def json.encodeInt : Int → Str
  | .ofNat n => json.decimal (n + 1) n
  | .negSucc n => '-' :: json.decimal (n + 2) (n + 1)

/-- The escape `\uXXXX` of a code unit. -/
def json.escapeU (n : Nat) : Str :=
  ['\\', 'u', Nat.digitChar (n / 4096 % 16), Nat.digitChar (n / 256 % 16),
    Nat.digitChar (n / 16 % 16), Nat.digitChar (n % 16)]

/-- Whether the encoder writes the character as a `\uXXXX` escape: the
control characters, the characters escaped for HTML, and the two line
separators U+2028 and U+2029. -/
def json.needsEscapeU (c : Char) : Bool :=
  c.toNat < 32 || c = '<' || c = '>' || c = '&' || c.toNat = 8232 || c.toNat = 8233

/-- One character inside a JSON string. -/
def json.encodeChar (c : Char) : Str :=
  if c = '"' then ['\\', '"']
  else if c = '\\' then ['\\', '\\']
  else if c = '\n' then ['\\', 'n']
  else if c = '\r' then ['\\', 'r']
  else if c = '\t' then ['\\', 't']
  else if json.needsEscapeU c then json.escapeU c.toNat
  else [c]

/-- The characters of a string, escaped, without the quotes around them. -/
def json.encodeChars : Str → Str
  | [] => []
  | c :: s => json.encodeChar c ++ json.encodeChars s

/-- A JSON string. -/
def json.encodeString (s : Str) : Str :=
  '"' :: json.encodeChars s ++ ['"']

mutual
/-- The compact JSON text of a value. -/
def json.encode : Value → Str
  | .nil => "null".toList
  | .bool true => "true".toList
  | .bool false => "false".toList
  | .number n => json.encodeInt n
  | .string s => json.encodeString s
  | .array xs => '[' :: json.encodeElems xs ++ [']']
  | .object fields => '\x7b' :: json.encodeFields fields ++ ['\x7d']
/-- The elements of an array, separated by commas. -/
def json.encodeElems : List Value → Str
  | [] => []
  | x :: xs =>
    json.encode x ++ (match xs with
      | [] => []
      | _ :: _ => ',' :: json.encodeElems xs)
/-- The fields of an object, separated by commas. -/
def json.encodeFields : List (Str × Value) → Str
  | [] => []
  | (key, x) :: fields =>
    json.encodeString key ++ ':' :: json.encode x ++ (match fields with
      | [] => []
      | _ :: _ => ',' :: json.encodeFields fields)
end

/-! ## error.go -/

/-- The struct `Error` of error.go. -/
structure Error where
  Code : Int
  Msg : Str

/-- The struct `ErrorWithData` of error.go. -/
structure ErrorWithData where
  Code : Int
  Msg : Str
  Data : Value

/-- A non-nil value of the Go interface `error`, by dynamic type: `*Error`,
`*ErrorWithData`, or any other error type (of which only the text matters, as
for `errors.New` and `fmt.Errorf`). -/
inductive error where
  | errorString (s : Str)
  | ofError (e : Error)
  | ofErrorWithData (e : ErrorWithData)

def errors.New (text : Str) : error :=
  error.errorString text

def NewError (code : Int) (msg : Str) : error :=
  error.ofError { Code := code, Msg := msg }

def NewErrorWithData (code : Int) (msg : Str) (data : Value) : error :=
  error.ofErrorWithData { Code := code, Msg := msg, Data := data }

/-- The method `Error()` of the three kinds of error. -/
def error.Error : error → Str
  | .errorString s => s
  | .ofError e => e.Msg
  | .ofErrorWithData e => e.Msg

/-! ## Panics -/

/-- A value a Go `panic` carries (never the nil value). -/
inductive PanicValue where
  | string (s : Str)
  | error (e : error)
  | runtimeError (text : Str)

/-- The string form of a panic value under `%v`. -/
def PanicValue.format : PanicValue → Str
  | .string s => s
  | .error e => e.Error
  | .runtimeError text => "runtime error: ".toList ++ text

/-- The panic of calling through a nil pointer or a nil interface. -/
def nilDereference : PanicValue :=
  PanicValue.runtimeError "invalid memory address or nil pointer dereference".toList

/-- Go `strconv.Itoa`, the decimal form that `%v` gives an integer. -/
def strconv.Itoa (n : Int) : Str :=
  json.encodeInt n

/-! ## http.ResponseWriter -/

/-- One call on an `http.ResponseWriter`. -/
inductive Call where
  | HeaderSet (key value : Str)
  | WriteHeader (status : Int)
  | Write (p : Str)

/-- An `http.ResponseWriter`: the calls made on it so far, oldest first. -/
structure ResponseWriter where
  calls : List Call

/-- A writer nothing has been written to. -/
def ResponseWriter.fresh : ResponseWriter :=
  { calls := [] }

def ResponseWriter.HeaderSet (w : ResponseWriter) (key value : Str) : ResponseWriter :=
  { calls := w.calls ++ [Call.HeaderSet key value] }

def ResponseWriter.Write (w : ResponseWriter) (p : Str) : ResponseWriter :=
  { calls := w.calls ++ [Call.Write p] }

/-- The status a call commits, if it commits one: `WriteHeader` its argument,
`Write` an implicit 200. -/
def Call.status? : Call → Option Int
  | .HeaderSet _ _ => none
  | .WriteHeader status => some status
  | .Write _ => some 200

/-- Whether the header of the response is written: some call has committed a
status. -/
def ResponseWriter.wroteHeader (w : ResponseWriter) : Bool :=
  !(w.calls.filterMap Call.status?).isEmpty

/-- Go `checkWriteHeaderCode` of net/http: the panic for a status outside
100..999. -/
def checkWriteHeaderCode (code : Int) : Option PanicValue :=
  if code < 100 ∨ code > 999 then
    some (PanicValue.string ("invalid WriteHeader code ".toList ++ strconv.Itoa code))
  else
    none

/-- The panic of `w.WriteHeader(status)`, if the call panics: the writer
checks the status unless its header is already written. -/
def ResponseWriter.WriteHeader.panic (w : ResponseWriter) (status : Int) : Option PanicValue :=
  if w.wroteHeader then none else checkWriteHeaderCode status

/-- The writer after `w.WriteHeader(status)`; a call that panics leaves it as
it was. -/
def ResponseWriter.WriteHeader (w : ResponseWriter) (status : Int) : ResponseWriter :=
  match ResponseWriter.WriteHeader.panic w status with
  | some _ => w
  | none => { calls := w.calls ++ [Call.WriteHeader status] }

/-- The HTTP status of the response: the one committed first, 200 when the
handler wrote nothing. -/
def ResponseWriter.Code (w : ResponseWriter) : Int :=
  ((w.calls.filterMap Call.status?).head?).getD 200

/-- The bytes a call adds to the body. -/
def Call.bytes : Call → Str
  | .Write p => p
  | _ => []

/-- The body of the response: everything written, in order. -/
def ResponseWriter.Body (w : ResponseWriter) : Str :=
  (w.calls.map Call.bytes).flatten

/-! ## codec.go -/

/-- The reply envelope. -/
structure reply where
  Code : Int
  Msg : Str
  Data : Value

/-- The envelope as the JSON object its struct tags describe. -/
def reply.toValue (rep : reply) : Value :=
  Value.object [("code".toList, Value.number rep.Code), ("msg".toList, Value.string rep.Msg),
    ("data".toList, rep.Data)]

/-- Go `json.Marshal` of an envelope. -/
def json.Marshal (rep : reply) : Str :=
  json.encode rep.toValue

/-! ## encoding/json, the decoder -/

def json.isSpace (c : Char) : Bool :=
  c = ' ' || c = '\t' || c = '\r' || c = '\n'

def json.skipSpace : Str → Str
  | [] => []
  | c :: s => if json.isSpace c then json.skipSpace s else c :: s

/-- The value of a hexadecimal digit. -/
def json.hexValue (c : Char) : Option Nat :=
  if '0' ≤ c ∧ c ≤ '9' then some (c.toNat - 48)
  else if 'a' ≤ c ∧ c ≤ 'f' then some (c.toNat - 87)
  else if 'A' ≤ c ∧ c ≤ 'F' then some (c.toNat - 55)
  else none

/-- The character a one-letter escape stands for. -/
def json.unescape (c : Char) : Option Char :=
  if c = '"' then some '"'
  else if c = '\\' then some '\\'
  else if c = '/' then some '/'
  else if c = 'b' then some (Char.ofNat 8)
  else if c = 'f' then some (Char.ofNat 12)
  else if c = 'n' then some '\n'
  else if c = 'r' then some '\r'
  else if c = 't' then some '\t'
  else none

/-- The rest of a JSON string after its opening quote: the characters it
stands for and the input after the closing quote. A `\uXXXX` escape is read as
one character (surrogate pairs are not combined). -/
def json.decodeChars : Str → Option (Str × Str)
  | [] => none
  | c :: rest =>
    if c = '"' then some ([], rest)
    else if c = '\\' then
      match rest with
      | [] => none
      | e :: rest =>
        if e = 'u' then
          match rest with
          | h3 :: h2 :: h1 :: h0 :: rest =>
            match json.hexValue h3, json.hexValue h2, json.hexValue h1, json.hexValue h0 with
            | some n3, some n2, some n1, some n0 =>
              match json.decodeChars rest with
              | none => none
              | some (s, rest) => some (Char.ofNat (4096 * n3 + 256 * n2 + 16 * n1 + n0) :: s, rest)
            | _, _, _, _ => none
          | _ => none
        else
          match json.unescape e with
          | none => none
          | some x =>
            match json.decodeChars rest with
            | none => none
            | some (s, rest) => some (x :: s, rest)
    else if c.toNat < 32 then none
    else
      match json.decodeChars rest with
      | none => none
      | some (s, rest) => some (c :: s, rest)

/-- A run of decimal digits: the number they add to `acc`, and the input
after them. -/
def json.decodeDigits : Nat → Str → Nat × Str
  | acc, [] => (acc, [])
  | acc, c :: s =>
    if c.isDigit then json.decodeDigits (10 * acc + (c.toNat - 48)) s else (acc, c :: s)

/-- An integer: an optional minus sign and at least one digit. -/
def json.decodeInt : Str → Option (Int × Str)
  | [] => none
  | c :: s =>
    if c = '-' then
      match s with
      | [] => none
      | d :: _ =>
        if d.isDigit then
          some (-((json.decodeDigits 0 s).1 : Int), (json.decodeDigits 0 s).2)
        else none
    else if c.isDigit then
      some (((json.decodeDigits 0 (c :: s)).1 : Int), (json.decodeDigits 0 (c :: s)).2)
    else none

mutual
/-- One JSON value at the head of the input, and the input after it; `fuel`
bounds the nesting and the number of elements. -/
def json.decodeValue : Nat → Str → Option (Value × Str)
  | 0, _ => none
  | fuel + 1, s =>
    match json.skipSpace s with
    | [] => none
    | c :: rest =>
      if c = 'n' then
        match rest with
        | 'u' :: 'l' :: 'l' :: rest => some (Value.nil, rest)
        | _ => none
      else if c = 't' then
        match rest with
        | 'r' :: 'u' :: 'e' :: rest => some (Value.bool true, rest)
        | _ => none
      else if c = 'f' then
        match rest with
        | 'a' :: 'l' :: 's' :: 'e' :: rest => some (Value.bool false, rest)
        | _ => none
      else if c = '"' then
        match json.decodeChars rest with
        | none => none
        | some (str, rest) => some (Value.string str, rest)
      else if c = '[' then
        match json.skipSpace rest with
        | [] => none
        | d :: rest2 =>
          if d = ']' then some (Value.array [], rest2)
          else
            match json.decodeElems fuel rest with
            | none => none
            | some (xs, rest) => some (Value.array xs, rest)
      else if c = '\x7b' then
        match json.skipSpace rest with
        | [] => none
        | d :: rest2 =>
          if d = '\x7d' then some (Value.object [], rest2)
          else
            match json.decodeFields fuel rest with
            | none => none
            | some (fields, rest) => some (Value.object fields, rest)
      else
        match json.decodeInt (c :: rest) with
        | none => none
        | some (n, rest) => some (Value.number n, rest)
/-- The elements of an array up to its closing bracket. -/
def json.decodeElems : Nat → Str → Option (List Value × Str)
  | 0, _ => none
  | fuel + 1, s =>
    match json.decodeValue fuel s with
    | none => none
    | some (x, rest) =>
      match json.skipSpace rest with
      | [] => none
      | c :: rest =>
        if c = ',' then
          match json.decodeElems fuel rest with
          | none => none
          | some (xs, rest) => some (x :: xs, rest)
        else if c = ']' then some ([x], rest)
        else none
/-- The fields of an object up to its closing brace. -/
def json.decodeFields : Nat → Str → Option (List (Str × Value) × Str)
  | 0, _ => none
  | fuel + 1, s =>
    match json.skipSpace s with
    | [] => none
    | q :: rest =>
      if q = '"' then
        match json.decodeChars rest with
        | none => none
        | some (key, rest) =>
          match json.skipSpace rest with
          | [] => none
          | c :: rest =>
            if c = ':' then
              match json.decodeValue fuel rest with
              | none => none
              | some (x, rest) =>
                match json.skipSpace rest with
                | [] => none
                | c :: rest =>
                  if c = ',' then
                    match json.decodeFields fuel rest with
                    | none => none
                    | some (fields, rest) => some ((key, x) :: fields, rest)
                  else if c = '\x7d' then some ([(key, x)], rest)
                  else none
            else none
      else none
end

/-- One decoded field stored into the envelope: `code` takes a number, `msg`
a string, `data` any value; `null` leaves `code` and `msg` as they are, and a
key the struct does not have is skipped. -/
def reply.setField (rep : reply) (key : Str) (x : Value) : Option reply :=
  if key = "code".toList then
    match x with
    | .number n => some { rep with Code := n }
    | .nil => some rep
    | _ => none
  else if key = "msg".toList then
    match x with
    | .string s => some { rep with Msg := s }
    | .nil => some rep
    | _ => none
  else if key = "data".toList then
    some { rep with Data := x }
  else
    some rep

/-- The fields of a decoded object stored into the envelope, in order. -/
def reply.setFields : reply → List (Str × Value) → Option reply
  | rep, [] => some rep
  | rep, (key, x) :: fields =>
    match rep.setField key x with
    | none => none
    | some rep => reply.setFields rep fields

/-- Go `json.Unmarshal(text, &rep)` for `rep` a zero envelope: `none` when
the text is not one JSON object that fits the struct. -/
def json.Unmarshal (text : Str) : Option reply :=
  match json.decodeValue (text.length + 1) text with
  | some (Value.object fields, rest) =>
    if json.skipSpace rest = [] then
      reply.setFields { Code := 0, Msg := [], Data := Value.nil } fields
    else none
  | _ => none

/-! ## Measures used to reason about the decoder -/

mutual
/-- The number of nodes of a value, a bound on the fuel its decoding takes. -/
def json.nodes : Value → Nat
  | .array xs => json.nodesElems xs + 1
  | .object fields => json.nodesFields fields + 1
  | _ => 1
/-- The nodes of the elements of an array. -/
def json.nodesElems : List Value → Nat
  | [] => 0
  | x :: xs => json.nodes x + json.nodesElems xs + 1
/-- The nodes of the fields of an object. -/
def json.nodesFields : List (Str × Value) → Nat
  | [] => 0
  | (_, x) :: fields => json.nodes x + json.nodesFields fields + 1
end

/-- The characters a JSON value can start with. -/
def json.heads : List Char :=
  ['n', 't', 'f', '-', '0', '1', '2', '3', '4', '5', '6', '7', '8', '9', '"', '[', '\x7b']

/-- An `*http.Request`, as far as the pipeline and the audit log read it. -/
structure Request where
  Method : Str
  Path : Str
  RequestURI : Str
  Proto : Str
  ContentType : Str
  UserAgent : Str
  Referer : Str
  RemoteAddr : Str
  Body : Str

/-- The Go type of a method's argument, as far as the pipeline asks:
whether `reflect.Kind` is `Struct`. -/
structure reflectType where
  isStruct : Bool

/-- The validator of `validator.v9`: `Struct` returns `none` for a valid
value and the text of its own error otherwise. -/
structure Validate where
  Struct : Value → Option Str

/-- What the sources take from the Go libraries. -/
structure Lib where
  /-- Go `strings.ToLower`. -/
  ToLower : Str → Str
  /-- Go `json.NewDecoder(body).Decode(x)` for `x` a fresh value of the type. -/
  Decode : Str → reflectType → Except Str Value
  /-- Go `r.ParseForm()` followed by the schema decoder's `Decode(x, r.Form)`. -/
  FormDecode : Request → reflectType → Except Str Value
  /-- Go `validator.New()`. -/
  validatorNew : Validate
  /-- Go `runtime.Stack` at the point of recovery. -/
  Stack : Str

/-- Go `json.NewEncoder(w).Encode(&rep)`: one write of the encoding followed
by a newline. -/
def Encode (w : ResponseWriter) (rep : reply) : ResponseWriter :=
  w.Write (json.Marshal rep ++ ['\n'])

structure codecRequest where
  Request : Request

def codecRequest.Method (r : codecRequest) : Except error Str :=
  let fs := strings.Split r.Request.Path '/'
  if fs.length < 3 then
    .error (errors.New "bad url".toList)
  else
    .ok (fs.getD 1 [] ++ ".".toList ++ fs.getD 2 [])

def codecRequest.ReadRequest (_r : codecRequest) : Except error Value :=
  .error (errors.New "not implemention".toList)

def codecRequest.WriteResponse (_r : codecRequest) (w : ResponseWriter)
    (x : Value) : ResponseWriter :=
  let w := w.HeaderSet "Content-Type".toList "application/json".toList
  let rep : reply := { Code := 200, Msg := [], Data := x }
  Encode w rep

/-- The envelope `rep` that `WriteError` builds: the status and the text of
the error, then the type switch on the error. -/
def codecRequest.WriteError.rep (status : Int) (err : error) : reply :=
  let rep : reply := { Code := status, Msg := err.Error, Data := Value.nil }
  match err with
  | .ofError e => { rep with Code := e.Code }
  | .ofErrorWithData e => { rep with Code := e.Code, Data := e.Data }
  | .errorString _ => rep

/-- The panic of `WriteError`, if it panics: that of its `w.WriteHeader(rep.Code)`. -/
def codecRequest.WriteError.panic (w : ResponseWriter) (status : Int) (err : error) :
    Option PanicValue :=
  let w := w.HeaderSet "Content-Type".toList "application/json".toList
  let rep := codecRequest.WriteError.rep status err
  ResponseWriter.WriteHeader.panic w rep.Code

/-- The writer after `WriteError`; when `w.WriteHeader(rep.Code)` panics the
function is left there, before anything is encoded. -/
def codecRequest.WriteError (_r : codecRequest) (w : ResponseWriter)
    (status : Int) (err : error) : ResponseWriter :=
  let w := w.HeaderSet "Content-Type".toList "application/json".toList
  let rep := codecRequest.WriteError.rep status err
  match ResponseWriter.WriteHeader.panic w rep.Code with
  | some _ => w
  | none =>
    let w := w.WriteHeader rep.Code
    Encode w rep

/-! ## json_codec.go and form_codec.go -/

/-- The codecs of the package. -/
inductive Codec where
  | JSONCodec
  | FormCodec

/-- The request adapters the two codecs create; both embed `codecRequest`
and replace its `ReadRequest`. -/
inductive CodecRequest where
  | _JSONCodecRequest (r : codecRequest)
  | formCodecRequest (r : codecRequest)

def Codec.NewRequest (c : Codec) (r : Request) : CodecRequest :=
  match c with
  | .JSONCodec => CodecRequest._JSONCodecRequest { Request := r }
  | .FormCodec => CodecRequest.formCodecRequest { Request := r }

/-- The embedded `codecRequest`. -/
def CodecRequest.codecRequest : CodecRequest → codecRequest
  | ._JSONCodecRequest r => r
  | .formCodecRequest r => r

def CodecRequest.Method (c : CodecRequest) : Except error Str :=
  c.codecRequest.Method

/-- The method `ReadRequest(x)` for `x` a pointer to a fresh value of type `t`: the
decoded value, or the decoder's error. -/
def CodecRequest.ReadRequest (lib : Lib) (c : CodecRequest) (t : reflectType) :
    Except error Value :=
  match c with
  | ._JSONCodecRequest r =>
    match lib.Decode r.Request.Body t with
    | .error text => .error (error.errorString text)
    | .ok x => .ok x
  | .formCodecRequest r =>
    match lib.FormDecode r.Request t with
    | .error text => .error (error.errorString text)
    | .ok x => .ok x

def CodecRequest.WriteResponse (c : CodecRequest) (w : ResponseWriter)
    (x : Value) : ResponseWriter :=
  c.codecRequest.WriteResponse w x

def CodecRequest.WriteError (c : CodecRequest) (w : ResponseWriter)
    (status : Int) (err : error) : ResponseWriter :=
  c.codecRequest.WriteError w status err

/-! ## options.go -/

/-- A `*log.Logger` that is not nil. -/
structure Logger where
  out : Str

structure Options where
  /-- The field `ErrorLog`; `none` is the nil pointer. -/
  ErrorLog : Option Logger
  EnableValidator : Bool

def DefaultOptions : Options :=
  { ErrorLog := some { out := "stderr".toList }, EnableValidator := true }

/-- Go `new(Options)`: every field zero. -/
def Options.zero : Options :=
  { ErrorLog := none, EnableValidator := false }

/-! ## server.go -/

/-- What a call of a bound method does. -/
inductive MethodResult where
  | returned (value : Value) (err : Option error)
  | panicked (v : PanicValue)

structure serviceMethod where
  argsType : reflectType
  /-- The method, bound to its receiver: from the request of the context
  and the decoded argument to the result of the call. -/
  method : Request → Value → MethodResult

structure service where
  methods : List (Str × serviceMethod)

/-- Modelled from the spec: the service registry, whose source file is not
among the sources. A table from service name to service. -/
structure serviceMap where
  services : List (Str × service)

/-- Modelled from the spec: `serviceMap.get`, which parses "Service.Method",
fails with "service not found" if the service segment is unknown and with
"method not found" if the method segment is unknown, and otherwise returns
the service and the method descriptor. -/
def serviceMap.get (m : serviceMap) (method : Str) : Except error (service × serviceMethod) :=
  let parts := strings.Split method '.'
  match m.services.lookup (parts.getD 0 []) with
  | none => .error (errors.New "service not found".toList)
  | some serviceSpec =>
    match serviceSpec.methods.lookup (parts.getD 1 []) with
    | none => .error (errors.New "method not found".toList)
    | some methodSpec => .ok (serviceSpec, methodSpec)

structure Server where
  opt : Options
  codecs : List (Str × Codec)
  services : serviceMap
  /-- The field `validator`; `none` is the nil pointer. -/
  validator : Option Validate

def NewServer (lib : Lib) (opt : Options) : Server :=
  { opt := opt
    codecs := []
    services := { services := [] }
    validator := if opt.EnableValidator then some lib.validatorNew else none }

/-- The assignment `s.codecs[strings.ToLower(contentType)] = codec`. -/
def Server.RegisterCodec (lib : Lib) (s : Server) (codec : Codec) (contentType : Str) : Server :=
  let key := lib.ToLower contentType
  { s with codecs := (key, codec) :: s.codecs.filter (fun kv => kv.1 ≠ key) }

def Server.HasMethod (s : Server) (method : Str) : Bool :=
  match s.services.get method with
  | .ok _ => true
  | .error _ => false

/-- The method `newTrace`: the family and title of the span, or the panic. -/
def Server.newTrace (_s : Server) (method : Str) : Except PanicValue (Str × Str) :=
  let ss := strings.Split method '.'
  if ss.length ≠ 2 then
    .error (PanicValue.string "bad method".toList)
  else
    .ok (ss.getD 0 [], ss.getD 1 [])

/-- The panic of the package-level `WriteError`, if it panics: that of its
`w.WriteHeader(status)`. -/
def WriteError.panic (w : ResponseWriter) (status : Int) : Option PanicValue :=
  ResponseWriter.WriteHeader.panic w status

/-- The writer after the package-level `WriteError`; when `w.WriteHeader(status)`
panics nothing is written. -/
def WriteError (w : ResponseWriter) (status : Int) (msg : Str) : ResponseWriter :=
  match ResponseWriter.WriteHeader.panic w status with
  | some _ => w
  | none =>
    let w := w.WriteHeader status
    let w := w.HeaderSet "Content-Type".toList "text/plain; charset=utf-8".toList
    w.Write msg

/-- What a request does besides writing the response. -/
inductive Event where
  | traceNew (family title : Str)
  | traceLazyPrintf (line : Str)
  | traceSetError
  | traceFinish
  /-- The call `s.services.get(method)`. -/
  | get (method : Str)
  /-- The call of the bound method. -/
  | Call (method : Str) (args : Value)
  /-- The line printed to `opt.ErrorLog`. -/
  | errorLog (line : Str)

/-- One run of `ServeHTTP`: the writer afterwards, what else happened, and
the panic that left the function, if one did. -/
structure Exec where
  w : ResponseWriter
  events : List Event
  panic : Option PanicValue

/-- The head of `ServeHTTP`: the content type of the request cut at its first
`;`, as the code matches and reports it. -/
def Server.contentType (r : Request) : Str :=
  let contentType := r.ContentType
  let idx := strings.Index contentType ';'
  if idx ≠ -1 then contentType.take idx.toNat else contentType

/-- The choice of the codec in `ServeHTTP`: `.error` is the return with 415,
`.ok none` the nil codec, `.ok (some codec)` the codec the request goes on
with. -/
def Server.selectCodec (lib : Lib) (s : Server) (r : Request) : Except Unit (Option Codec) :=
  let contentType := Server.contentType r
  if contentType = [] ∧ s.codecs.length = 1 then
    -- `for _, c := range s.codecs { codec = c }`
    .ok (s.codecs.foldl (fun _ kv => some kv.2) none)
  else
    match s.codecs.lookup (lib.ToLower contentType) with
    | none => .error ()
    | some c => .ok (some c)

/-- The validation step of `ServeHTTP`: `.ok none` when the argument passes
or is not validated, `.ok (some err)` when the validator returns `err`, and
`.error` for the panic of `s.validator.Struct` on a nil validator. -/
def Server.validate (s : Server) (argsType : reflectType) (args : Value) :
    Except PanicValue (Option error) :=
  if s.opt.EnableValidator ∧ argsType.isStruct then
    match s.validator with
    | none => .error nilDereference
    | some v => .ok ((v.Struct args).map error.errorString)
  else
    .ok none

/-- The deferred function of `ServeHTTP` once `recover()` has returned the
panic value `v`, with `w` the writer and `ev` the events at that point: a line
to the error log, which is a nil-pointer panic of its own when `ErrorLog` is
nil, then `codecReq.WriteError(w, 500, fmt.Errorf("%v", v))`; the span is
finished after it. -/
def Server.recovered (lib : Lib) (s : Server) (r : Request) (codecReq : CodecRequest)
    (w : ResponseWriter) (ev : List Event) (v : PanicValue) : Exec :=
  match s.opt.ErrorLog with
  | none => { w := w, events := ev ++ [Event.traceFinish], panic := some nilDereference }
  | some _ =>
    { w := codecReq.WriteError w 500 (error.errorString v.format)
      events := ev ++ [Event.errorLog ("gozilla: panic serving ".toList ++ r.RemoteAddr
        ++ ": ".toList ++ v.format ++ "\n".toList ++ lib.Stack), Event.traceFinish]
      panic := codecRequest.WriteError.panic w 500 (error.errorString v.format) }

/-- The rest of `ServeHTTP`, from `codecReq := codec.NewRequest(r)` on. A
panic of `codecReq.WriteError` before the recovery is installed leaves the
function; after it, a panic of the bound method or of `codecReq.WriteError` is
recovered. -/
def Server.serveWith (lib : Lib) (s : Server) (w : ResponseWriter) (r : Request)
    (codec : Codec) : Exec :=
  let codecReq := codec.NewRequest r
  match codecReq.Method with
  | .error errMethod =>
    { w := codecReq.WriteError w 400 errMethod, events := []
      panic := codecRequest.WriteError.panic w 400 errMethod }
  | .ok method =>
  match s.newTrace method with
  | .error v => { w := w, events := [], panic := some v }
  | .ok tr =>
  -- `defer tr.Finish()`: every exit below ends with `traceFinish`
  let ev := [Event.traceNew tr.1 tr.2, Event.get method]
  match s.services.get method with
  | .error errGet =>
    { w := codecReq.WriteError w 404 errGet
      events := ev ++ [Event.traceLazyPrintf ("method not found:".toList ++ method),
        Event.traceSetError, Event.traceFinish]
      panic := codecRequest.WriteError.panic w 404 errGet }
  | .ok (_serviceSpec, methodSpec) =>
  match codecReq.ReadRequest lib methodSpec.argsType with
  | .error errRead =>
    { w := codecReq.WriteError w 400 errRead
      events := ev ++ [Event.traceLazyPrintf ("read request error:".toList ++ errRead.Error),
        Event.traceSetError, Event.traceFinish]
      panic := codecRequest.WriteError.panic w 400 errRead }
  | .ok args =>
  match s.validate methodSpec.argsType args with
  | .error v => { w := w, events := ev ++ [Event.traceFinish], panic := some v }
  | .ok (some err) =>
    { w := codecReq.WriteError w 400 err
      events := ev ++ [Event.traceLazyPrintf ("validate request error:".toList ++ err.Error),
        Event.traceSetError, Event.traceFinish]
      panic := codecRequest.WriteError.panic w 400 err }
  | .ok none =>
  -- from here on the deferred `recover` is installed
  let ev := ev ++ [Event.Call method args]
  match methodSpec.method r args with
  | .panicked v => s.recovered lib r codecReq w ev v
  | .returned value errResult =>
    let w := w.HeaderSet "x-content-type-options".toList "nosniff".toList
    match errResult with
    | none =>
      { w := codecReq.WriteResponse w value, events := ev ++ [Event.traceFinish]
        panic := none }
    | some errResult =>
      let ev := ev ++ [Event.traceLazyPrintf ("call error:".toList ++ errResult.Error),
        Event.traceSetError]
      match codecRequest.WriteError.panic w 400 errResult with
      | none =>
        { w := codecReq.WriteError w 400 errResult, events := ev ++ [Event.traceFinish]
          panic := none }
      | some v => s.recovered lib r codecReq (codecReq.WriteError w 400 errResult) ev v

def Server.ServeHTTP (lib : Lib) (s : Server) (w : ResponseWriter) (r : Request) : Exec :=
  match s.selectCodec lib r with
  | .error _ =>
    { w := WriteError w 415 ("rpc: unrecognized Content-Type: ".toList ++ Server.contentType r)
      events := [], panic := WriteError.panic w 415 }
  | .ok none => { w := w, events := [], panic := some nilDereference }
  | .ok (some codec) => s.serveWith lib w r codec

/-! ## log.go -/

/-- Go `strings.LastIndex(s, sep)` for a one-byte separator. -/
def strings.LastIndex (s : Str) (sep : Char) : Int :=
  if sep ∈ s then ((s.length - 1 - List.indexOf sep s.reverse : Nat) : Int) else -1

structure loggingResponse where
  ResponseWriter : ResponseWriter
  status : Int

def newLoggingResponse (w : ResponseWriter) : loggingResponse :=
  { ResponseWriter := w, status := 0 }

/-- The wrapper's `WriteHeader`: the status is stored, then the call goes on
to the wrapped writer (whose panic, if it panics, is the handler's to deal
with). -/
def loggingResponse.WriteHeader (l : loggingResponse) (status : Int) : loggingResponse :=
  { status := status, ResponseWriter := l.ResponseWriter.WriteHeader status }

def loggingResponse.Status (l : loggingResponse) : Int :=
  l.status

/-- One call of the inner handler on the wrapper. `WriteHeader` is the
wrapper's own method; the other two are promoted from the embedded writer. -/
def loggingResponse.call (l : loggingResponse) : Call → loggingResponse
  | .WriteHeader status => l.WriteHeader status
  | .HeaderSet key value => { l with ResponseWriter := l.ResponseWriter.HeaderSet key value }
  | .Write p => { l with ResponseWriter := l.ResponseWriter.Write p }

structure logRecord where
  time : Nat
  Time : Str
  Remote : Str
  Method : Str
  Rawpath : Str
  Status : Int
  UserAgent : Str
  Refer : Str
  Proto : Str
  Body : Str
  /-- The elapsed time, in clock ticks (the source stores it as seconds). -/
  Used : Nat

structure LogOptions where
  BaseDir : Str
  Prefix : Str
  Suffix : Str
  Format : Str
  /-- The flush interval, in nanoseconds. -/
  FlushInterval : Nat

def DefaultLogOptions : LogOptions :=
  { BaseDir := "log".toList
    Prefix := "gozilla".toList
    Suffix := "20060102".toList
    FlushInterval := 3 * 1000000000
    Format := ("\x7b\x7b.Remote\x7d\x7d [\x7b\x7b.Time\x7d\x7d] \"\x7b\x7b.Method\x7d\x7d "
      ++ "\x7b\x7b.Rawpath\x7d\x7d \x7b\x7b.Proto\x7d\x7d\" \x7b\x7b.Status\x7d\x7d "
      ++ "\x7b\x7b.UserAgent\x7d\x7d \x7b\x7b.Used\x7d\x7d").toList }

/-- What an inner `http.Handler` does with one request: the calls it makes on
the response writer it is given, in order, and how many bytes of the request
body it reads. -/
structure Handled where
  calls : List Call
  read : Nat

/-- What the audit log takes from the operating system and the Go library at
one moment. -/
structure LogEnv where
  /-- Go `time.Now()`, in clock ticks. -/
  now : Nat
  /-- Go `t.Format(layout)`. -/
  Format : Nat → Str → Str
  /-- Go `filepath.Join`. -/
  Join : Str → Str → Str
  /-- Whether `os.OpenFile` succeeds on the name. -/
  canOpen : Str → Bool
  /-- Go `strconv.Quote`. -/
  Quote : Str → Str

/-- The logger. The open file and its buffered writer are the name of the
file; `written` lists the records handed to the line template, each with the
file its line went to, oldest first. -/
structure logger where
  opt : LogOptions
  next : Request → Handled
  lastFileName : Str
  /-- The field `logFile`; `none` is the nil pointer. -/
  logFile : Option Str
  written : List (Str × logRecord)

/-- The constructor `NewLoggerHandler`, without the creation of the directory and the check
of the template, which can only panic. -/
def NewLoggerHandler (opt : LogOptions) (h : Request → Handled) : logger :=
  { opt := opt, next := h, lastFileName := [], logFile := none, written := [] }

def compactBody (src : Str) : Str :=
  strings.Replace src '\n' ' '

/-- The method `logRecord`: the logger afterwards, and the record as rendered into the
line (`none` when no line is written). -/
def logger.logRecord (l : logger) (env : LogEnv) (lr : logRecord) : logger × Option logRecord :=
  let fileName := l.opt.Prefix ++ ".".toList ++ env.Format env.now l.opt.Suffix ++ ".log".toList
  let fullName := env.Join l.opt.BaseDir fileName
  -- `none`: the return after a failed open
  let opened : Option logger :=
    if fullName > l.lastFileName then
      if env.canOpen fullName then
        some { l with logFile := some fullName, lastFileName := fullName }
      else
        none
    else
      some l
  match opened with
  | none => ({ l with logFile := none }, none)
  | some l =>
  let lr := { lr with Body := compactBody lr.Body }
  let lr := if lr.Body.length = 0 then { lr with Body := "-".toList } else lr
  let lr := { lr with Time := env.Format lr.time "02/Jan/2006:15:04:05 -0700".toList }
  let lr := { lr with UserAgent := env.Quote lr.UserAgent }
  let lr := if lr.Status = 0 then { lr with Status := 200 } else lr
  match l.logFile with
  | some file => ({ l with written := l.written ++ [(file, lr)] }, some lr)
  | none => (l, none)

/-- The method `logger.ServeHTTP`: the writer after the inner handler ran, and the record
sent to the channel. `begin` and `done` are the clock before and after the
inner handler. -/
def logger.ServeHTTP (l : logger) (begin done : Nat) (w : ResponseWriter) (r : Request) :
    ResponseWriter × Gozilla.logRecord :=
  let ww := newLoggingResponse w
  let h := l.next r
  let ww := h.calls.foldl loggingResponse.call ww
  let addr := r.RemoteAddr
  let colon := strings.LastIndex addr ':'
  let addr := if colon ≠ -1 then addr.take colon.toNat else addr
  (ww.ResponseWriter,
    { time := done
      Time := []
      Remote := addr
      Method := r.Method
      Rawpath := r.RequestURI
      UserAgent := r.UserAgent
      Refer := r.Referer
      Status := ww.Status
      Proto := r.Proto
      Body := r.Body.take h.read
      Used := done - begin })

/-! ## The services of examples/helloworld/main.go and of server_test.go -/

/-- The field of an object, `nil` when there is none. -/
def Value.field (x : Value) (key : Str) : Value :=
  match x with
  | .object fields => (fields.lookup key).getD Value.nil
  | _ => Value.nil

/-- The text of a string value, empty for any other value. -/
def Value.text : Value → Str
  | .string s => s
  | _ => []

/-- The pairs `key=value` of a form, separated by `&`. -/
def helloworld.formFields (form : Str) : List (Str × Value) :=
  (strings.Split form '&').filterMap (fun pair =>
    match strings.Split pair '=' with
    | [key, value] => some (key, Value.string value)
    | _ => none)

/-- A library to run the examples with: ASCII lower-casing, a request body
decoded as the JSON tree it spells, a form decoded as its pairs, and a
validator for argument types without tags. -/
def helloworld.lib : Lib :=
  { ToLower := fun s => s.map Char.toLower
    Decode := fun body _ =>
      match json.decodeValue (body.length + 1) body with
      | some (x, _) => .ok x
      | none => .error "unexpected end of JSON input".toList
    FormDecode := fun r _ => .ok (Value.object (helloworld.formFields r.Body))
    validatorNew := { Struct := fun _ => none }
    Stack := "goroutine 1 [running]:".toList }

def helloworld.Hello (_ctx : Request) (r : Value) : MethodResult :=
  .returned
    (Value.object [("Reply".toList, Value.string ("hello ".toList ++ (r.field "Name".toList).text))])
    none

def helloworld.HelloError (_ctx : Request) (_r : Value) : MethodResult :=
  .returned Value.nil (some (NewError 440 "bad return".toList))

def helloworld.HelloErrorWithData (_ctx : Request) (r : Value) : MethodResult :=
  .returned Value.nil (some (NewErrorWithData 440 "bad return".toList r))

def helloworld.HelloService : service :=
  { methods :=
      [ ("Hello".toList, { argsType := { isStruct := true }, method := helloworld.Hello }),
        ("HelloError".toList, { argsType := { isStruct := true }, method := helloworld.HelloError }),
        ("HelloErrorWithData".toList,
          { argsType := { isStruct := true }, method := helloworld.HelloErrorWithData }) ] }

/-- The variable `DefaultServer` after `init` of server.go has registered its codecs. -/
def DefaultServer (lib : Lib) : Server :=
  let s := NewServer lib DefaultOptions
  let s := s.RegisterCodec lib Codec.JSONCodec "application/json".toList
  let s := s.RegisterCodec lib Codec.FormCodec "".toList
  s.RegisterCodec lib Codec.FormCodec "application/x-www-form-urlencoded".toList

/-- The server of examples/helloworld: `DefaultServer` with the service
registered as "hello". -/
def helloworld.main : Server :=
  { DefaultServer helloworld.lib with
    services := { services := [("hello".toList, helloworld.HelloService)] } }

/-- A request as `httptest.NewRequest("POST", path, body)` builds it, with the
given `Content-Type`. -/
def httptest.NewRequest (path contentType body : Str) : Request :=
  { Method := "POST".toList, Path := path, RequestURI := path, Proto := "HTTP/1.1".toList
    ContentType := contentType, UserAgent := [], Referer := []
    RemoteAddr := "192.0.2.1:1234".toList, Body := body }

/-- The validator seen from server_test.go: the one tagged field, `Body` of
`EchoRequest`, is required. -/
def server_test.validator : Validate :=
  { Struct := fun x =>
      match x.field "Body".toList with
      | .string (_ :: _) => none
      | _ => some ("Key: 'EchoRequest.Body' Error:Field validation for 'Body' failed on the "
          ++ "'required' tag").toList }

def server_test.lib : Lib :=
  { helloworld.lib with validatorNew := server_test.validator }

def server_test.Echo (_ctx : Request) (req : Value) : MethodResult :=
  .returned req none

def server_test.echoService : service :=
  { methods := [("Echo".toList, { argsType := { isStruct := true }, method := server_test.Echo })] }

/-- The server of `TestServerValidate`. -/
def server_test.rpcServer : Server :=
  { (NewServer server_test.lib DefaultOptions).RegisterCodec server_test.lib Codec.JSONCodec
      "application/json".toList with
    services := { services := [("echo".toList, server_test.echoService)] } }

/-- A method that panics. -/
def server_test.Boom (_ctx : Request) (_req : Value) : MethodResult :=
  .panicked (PanicValue.string "boom".toList)

/-- A method that returns the error `NewError(0, "zero")`. -/
def server_test.Zero (_ctx : Request) (_req : Value) : MethodResult :=
  .returned Value.nil (some (NewError 0 "zero".toList))

/-- The server of `TestServerValidate`, whose error log is set, serving a
service with a method that returns `NewError(0, "zero")`. -/
def server_test.zeroServer : Server :=
  { (NewServer server_test.lib DefaultOptions).RegisterCodec server_test.lib Codec.JSONCodec
      "application/json".toList with
    services := { services := [("echo".toList,
      { methods := [("Zero".toList,
          { argsType := { isStruct := true }, method := server_test.Zero })] })] } }

/-- The server of the benchmarks, `NewServer(new(Options))` with the JSON
codec, serving a service whose method panics. -/
def server_test.benchServer : Server :=
  { (NewServer server_test.lib Options.zero).RegisterCodec server_test.lib Codec.JSONCodec
      "application/json".toList with
    services := { services := [("echo".toList,
      { methods := [("Boom".toList, { argsType := { isStruct := true }, method := server_test.Boom })] })] } }

/-- The status of a call of `WriteHeader`, `none` for the other calls. -/
def Call.header? : Call → Option Int
  | .WriteHeader status => some status
  | _ => none

/-- An environment for the audit log in which every file opens; times are
shown as the layout they are formatted with. -/
def log_test.env : LogEnv :=
  { now := 2
    Format := fun _ layout => layout
    Join := fun dir file => dir ++ "/".toList ++ file
    canOpen := fun _ => true
    Quote := fun s => '"' :: s ++ ['"'] }

/-- A handler that calls `WriteHeader(500)`, then `WriteHeader(200)`, and
reads the whole body. -/
def log_test.twice (r : Request) : Handled :=
  { calls := [Call.WriteHeader 500, Call.WriteHeader 200], read := r.Body.length }

/-- A handler that writes a body and then calls `WriteHeader(500)`. -/
def log_test.late (r : Request) : Handled :=
  { calls := [Call.Write "ok".toList, Call.WriteHeader 500], read := r.Body.length }

/-- A handler that writes a body without calling `WriteHeader`, and reads the
whole body of the request. -/
def log_test.quiet (r : Request) : Handled :=
  { calls := [Call.Write "ok".toList], read := r.Body.length }

/-- A request with a body of two lines. -/
def log_test.request : Request :=
  httptest.NewRequest "/echo/Echo".toList "application/x-www-form-urlencoded".toList
    "a=1\nb=2".toList

/-! ## Sanity checks of the embedding on concrete inputs -/

example :
    json.Marshal
        { Code := 200, Msg := []
          Data := Value.object [("Reply".toList, Value.string "hello world".toList)] }
      = "\x7b\"code\":200,\"msg\":\"\",\"data\":\x7b\"Reply\":\"hello world\"\x7d\x7d".toList := by
  decide

example :
    json.Marshal
        { Code := -40, Msg := "a\n<b>\"".toList
          Data := Value.array [Value.nil, Value.bool true, Value.number 1234567] }
      = ("\x7b\"code\":-40,\"msg\":\"a\\n\\u003cb\\u003e\\\"\","
          ++ "\"data\":[null,true,1234567]\x7d").toList := by
  decide

example :
    json.Unmarshal
        "\x7b\"code\":200,\"msg\":\"\",\"data\":\x7b\"Reply\":\"hello world\"\x7d\x7d\n".toList
      = some
          { Code := 200, Msg := []
            Data := Value.object [("Reply".toList, Value.string "hello world".toList)] } := by
  rfl

example :
    json.Unmarshal
        ("\x7b \"data\" : [null, true, 1234567],\n"
          ++ "  \"msg\":\"a\\n\\u003cb\\u003e\\\"\", \"code\":-40 \x7d").toList
      = some
          { Code := -40, Msg := "a\n<b>\"".toList
            Data := Value.array [Value.nil, Value.bool true, Value.number 1234567] } := by
  rfl

example :
    (helloworld.main.ServeHTTP helloworld.lib ResponseWriter.fresh
        (httptest.NewRequest "/hello/Hello".toList "application/json".toList
          "\x7b\"Name\":\"world\"\x7d".toList)).w.Body
      = "\x7b\"code\":200,\"msg\":\"\",\"data\":\x7b\"Reply\":\"hello world\"\x7d\x7d\n".toList := by
  rfl

example :
    (server_test.rpcServer.ServeHTTP server_test.lib ResponseWriter.fresh
        (httptest.NewRequest "/echo/Echo".toList [] "\x7b\"Body\":\"\"\x7d".toList)).w.Code
      = 400 := by
  rfl

example :
    (server_test.rpcServer.ServeHTTP server_test.lib ResponseWriter.fresh
        (httptest.NewRequest "/echo/Echo".toList [] "\x7b\"Body\":\"x\"\x7d".toList)).w.Code
      = 200 := by
  rfl

example :
    (helloworld.main.ServeHTTP helloworld.lib ResponseWriter.fresh
        (httptest.NewRequest "/hello/Nope".toList "Application/JSON; charset=utf-8".toList
          "\x7b\x7d".toList)).w.Body
      = "\x7b\"code\":404,\"msg\":\"method not found\",\"data\":null\x7d\n".toList := by
  rfl

/-! ## Splitting -/

theorem strings.Split_single (xs : Str) (sep : Char) (h : sep ∉ xs) :
    strings.Split xs sep = [xs] := by
  unfold strings.Split List.splitOn
  apply List.splitOnP_eq_single
  intro x hx hsep
  have : x = sep := by simpa using hsep
  exact h (this ▸ hx)

theorem strings.Split_append (xs ys : Str) (sep : Char) (h : sep ∉ xs) :
    strings.Split (xs ++ sep :: ys) sep = xs :: strings.Split ys sep := by
  unfold strings.Split List.splitOn
  apply List.splitOnP_first
  · intro x hx hsep
    have : x = sep := by simpa using hsep
    exact h (this ▸ hx)
  · simp

/-! ## The response writer -/

theorem checkWriteHeaderCode_ok (code : Int) (h1 : 100 ≤ code) (h2 : code ≤ 999) :
    checkWriteHeaderCode code = none := by
  have : ¬ (code < 100 ∨ code > 999) := by omega
  simp [checkWriteHeaderCode, this]

theorem ResponseWriter.WriteHeader.panic_in_range (w : ResponseWriter) (status : Int)
    (h1 : 100 ≤ status) (h2 : status ≤ 999) : ResponseWriter.WriteHeader.panic w status = none := by
  unfold ResponseWriter.WriteHeader.panic
  split
  · rfl
  · exact checkWriteHeaderCode_ok status h1 h2

theorem ResponseWriter.calls_WriteHeader (w : ResponseWriter) (status : Int)
    (h : ResponseWriter.WriteHeader.panic w status = none) :
    (w.WriteHeader status).calls = w.calls ++ [Call.WriteHeader status] := by
  simp [ResponseWriter.WriteHeader, h]

theorem codecRequest.WriteError.panic_code_in_range (w : ResponseWriter) (s : Int) (e : error)
    (h1 : 100 ≤ (codecRequest.WriteError.rep s e).Code)
    (h2 : (codecRequest.WriteError.rep s e).Code ≤ 999) :
    codecRequest.WriteError.panic w s e = none :=
  ResponseWriter.WriteHeader.panic_in_range _ _ h1 h2

theorem ResponseWriter.calls_WriteError (r : codecRequest) (w : ResponseWriter) (s : Int)
    (e : error) (h : codecRequest.WriteError.panic w s e = none) :
    (r.WriteError w s e).calls = w.calls ++
      [Call.HeaderSet "Content-Type".toList "application/json".toList,
        Call.WriteHeader (codecRequest.WriteError.rep s e).Code,
        Call.Write (json.Marshal (codecRequest.WriteError.rep s e) ++ ['\n'])] := by
  simp only [codecRequest.WriteError.panic] at h
  simp only [codecRequest.WriteError, h, Encode, ResponseWriter.Write]
  rw [ResponseWriter.calls_WriteHeader _ _ h]
  simp [ResponseWriter.HeaderSet]

theorem ResponseWriter.calls_WriteError_panic (r : codecRequest) (w : ResponseWriter) (s : Int)
    (e : error) (v : PanicValue) (h : codecRequest.WriteError.panic w s e = some v) :
    (r.WriteError w s e).calls = w.calls ++
      [Call.HeaderSet "Content-Type".toList "application/json".toList] := by
  simp only [codecRequest.WriteError.panic] at h
  simp only [codecRequest.WriteError, h]
  simp [ResponseWriter.HeaderSet]

theorem ResponseWriter.calls_WriteResponse (r : codecRequest) (w : ResponseWriter) (x : Value) :
    (r.WriteResponse w x).calls = w.calls ++
      [Call.HeaderSet "Content-Type".toList "application/json".toList,
        Call.Write (json.Marshal { Code := 200, Msg := [], Data := x } ++ ['\n'])] := by
  simp [codecRequest.WriteResponse, Encode, ResponseWriter.Write, ResponseWriter.HeaderSet]

/-! ## The decoder reads back what the encoder writes -/

theorem json.digitChar_isDigit : ∀ n < 10, (Nat.digitChar n).isDigit = true
    ∧ (Nat.digitChar n).toNat - 48 = n := by
  decide

theorem json.decodeDigits_decimal (fuel : Nat) :
    ∀ (n acc : Nat) (rest : Str), n < fuel →
      json.decodeDigits acc (json.decimal fuel n ++ rest)
        = json.decodeDigits (acc * 10 ^ (json.decimal fuel n).length + n) rest := by
  induction fuel with
  | zero => intro n acc rest h; omega
  | succ fuel ih =>
    intro n acc rest h
    unfold json.decimal
    by_cases hn : n < 10
    · simp only [hn, if_true, List.singleton_append, List.length_singleton, pow_one]
      rw [json.decodeDigits]
      simp only [(json.digitChar_isDigit n hn).1, if_true, (json.digitChar_isDigit n hn).2]
      congr 1; omega
    · simp only [hn, if_false, List.append_assoc, List.singleton_append, List.length_append,
        List.length_singleton]
      rw [ih (n / 10) acc _ (by omega), json.decodeDigits]
      have hd := json.digitChar_isDigit (n % 10) (by omega)
      simp only [hd.1, if_true, hd.2]
      congr 1
      rw [pow_succ]
      have := Nat.div_add_mod n 10
      nlinarith [Nat.div_add_mod n 10]

theorem json.decodeDigits_stop (acc : Nat) (rest : Str)
    (h : ∀ c ∈ rest.head?, c.isDigit = false) : json.decodeDigits acc rest = (acc, rest) := by
  cases rest with
  | nil => rfl
  | cons c t =>
    have : c.isDigit = false := h c (by simp)
    simp [json.decodeDigits, this]

theorem json.hexValue_digitChar : ∀ n < 16, json.hexValue (Nat.digitChar n) = some n := by
  decide

theorem json.decodeChars_quote (rest : Str) : json.decodeChars ('"' :: rest) = some ([], rest) := by
  rw [json.decodeChars.eq_def]
  simp

theorem json.decodeChars_escape (e x : Char) (rest : Str) (he : e ≠ 'u')
    (hx : json.unescape e = some x) :
    json.decodeChars ('\\' :: e :: rest)
      = match json.decodeChars rest with
        | none => none
        | some (s, rest) => some (x :: s, rest) := by
  rw [json.decodeChars.eq_def]
  simp [he, hx]

theorem json.decodeChars_plain (c : Char) (rest : Str) (h1 : c ≠ '"') (h2 : c ≠ '\\')
    (h3 : ¬ c.toNat < 32) :
    json.decodeChars (c :: rest)
      = match json.decodeChars rest with
        | none => none
        | some (s, rest) => some (c :: s, rest) := by
  rw [json.decodeChars.eq_def]
  simp [h1, h2, h3]

theorem json.decodeChars_escapeU (n : Nat) (hn : n < 65536) (rest : Str) :
    json.decodeChars (json.escapeU n ++ rest)
      = match json.decodeChars rest with
        | none => none
        | some (s, rest) => some (Char.ofNat n :: s, rest) := by
  have h3 := json.hexValue_digitChar (n / 4096 % 16) (Nat.mod_lt _ (by decide))
  have h2 := json.hexValue_digitChar (n / 256 % 16) (Nat.mod_lt _ (by decide))
  have h1 := json.hexValue_digitChar (n / 16 % 16) (Nat.mod_lt _ (by decide))
  have h0 := json.hexValue_digitChar (n % 16) (Nat.mod_lt _ (by decide))
  have hsum : 4096 * (n / 4096 % 16) + 256 * (n / 256 % 16) + 16 * (n / 16 % 16) + n % 16 = n := by
    omega
  simp only [json.escapeU, List.cons_append, List.nil_append]
  rw [json.decodeChars.eq_def]
  simp [h3, h2, h1, h0, hsum]

theorem json.decodeChars_encodeChar (c : Char) (rest : Str) :
    json.decodeChars (json.encodeChar c ++ rest)
      = match json.decodeChars rest with
        | none => none
        | some (s, rest) => some (c :: s, rest) := by
  unfold json.encodeChar
  by_cases h1 : c = '"'
  · subst h1; exact json.decodeChars_escape _ _ _ (by decide) (by decide)
  by_cases h2 : c = '\\'
  · subst h2; exact json.decodeChars_escape _ _ _ (by decide) (by decide)
  by_cases h3 : c = '\n'
  · subst h3; exact json.decodeChars_escape _ _ _ (by decide) (by decide)
  by_cases h4 : c = '\r'
  · subst h4; exact json.decodeChars_escape _ _ _ (by decide) (by decide)
  by_cases h5 : c = '\t'
  · subst h5; exact json.decodeChars_escape _ _ _ (by decide) (by decide)
  simp only [h1, h2, h3, h4, h5, if_false]
  by_cases h6 : json.needsEscapeU c = true
  · simp only [h6, if_true]
    have hlt : c.toNat < 65536 := by
      simp only [json.needsEscapeU, Bool.or_eq_true, decide_eq_true_eq] at h6
      rcases h6 with ((((h | h) | h) | h) | h) | h
      · omega
      · subst h; decide
      · subst h; decide
      · subst h; decide
      · omega
      · omega
    rw [json.decodeChars_escapeU _ hlt, Char.ofNat_toNat]
  · simp only [h6, if_false, List.singleton_append, Bool.false_eq_true]
    have hge : ¬ c.toNat < 32 := by
      intro hlt
      apply h6
      simp [json.needsEscapeU, hlt]
    exact json.decodeChars_plain c rest h1 h2 hge

theorem json.decodeChars_encodeChars (s rest : Str) :
    json.decodeChars (json.encodeChars s ++ '"' :: rest) = some (s, rest) := by
  induction s with
  | nil => exact json.decodeChars_quote rest
  | cons c s ih =>
    simp only [json.encodeChars, List.append_assoc]
    rw [json.decodeChars_encodeChar, ih]

theorem json.digitChar_mem_heads : ∀ n < 10, Nat.digitChar n ∈ json.heads := by
  decide

theorem json.heads_spec : ∀ c ∈ json.heads,
    json.isSpace c = false ∧ c ≠ ']' ∧ c ≠ '\x7d' ∧ c ≠ ',' ∧ c ≠ ':' := by
  decide

theorem json.decimal_head (fuel n : Nat) (h : n < fuel) :
    ∃ d t, d < 10 ∧ json.decimal fuel n = Nat.digitChar d :: t := by
  induction fuel generalizing n with
  | zero => omega
  | succ fuel ih =>
    unfold json.decimal
    by_cases hn : n < 10
    · simp only [hn, if_true]
      exact ⟨n, [], hn, rfl⟩
    · simp only [hn, if_false]
      obtain ⟨d, t, hd, hc⟩ := ih (n / 10) (by omega)
      exact ⟨d, t ++ [Nat.digitChar (n % 10)], hd, by simp [hc]⟩

theorem json.skipSpace_cons (c : Char) (s : Str) (h : json.isSpace c = false) :
    json.skipSpace (c :: s) = c :: s := by
  simp [json.skipSpace, h]

theorem json.decodeInt_encodeInt (n : Int) (rest : Str)
    (h : ∀ c ∈ rest.head?, c.isDigit = false) :
    json.decodeInt (json.encodeInt n ++ rest) = some (n, rest) := by
  cases n with
  | ofNat n =>
    obtain ⟨d, t, hd, hc⟩ := json.decimal_head (n + 1) n (by omega)
    have hdig := json.digitChar_isDigit d hd
    have hne : Nat.digitChar d ≠ '-' := by
      intro hh; rw [hh] at hdig; exact absurd hdig.1 (by decide)
    have hval := json.decodeDigits_decimal (n + 1) n 0 rest (by omega)
    rw [json.decodeDigits_stop _ _ h] at hval
    simp only [json.encodeInt]
    rw [hc] at hval ⊢
    simp only [List.cons_append, json.decodeInt, hne, if_false, hdig.1, if_true] at hval ⊢
    rw [hval]
    simp
  | negSucc n =>
    obtain ⟨d, t, hd, hc⟩ := json.decimal_head (n + 2) (n + 1) (by omega)
    have hdig := json.digitChar_isDigit d hd
    have hval := json.decodeDigits_decimal (n + 2) (n + 1) 0 rest (by omega)
    rw [json.decodeDigits_stop _ _ h] at hval
    simp only [json.encodeInt]
    rw [hc] at hval ⊢
    simp only [List.cons_append, json.decodeInt, if_true, hdig.1] at hval ⊢
    rw [hval]
    simp [Int.negSucc_eq]

theorem json.encodeInt_head (n : Int) : ∃ c t, json.encodeInt n = c :: t ∧ c ∈ json.heads := by
  cases n with
  | ofNat n =>
    obtain ⟨d, t, hd, hc⟩ := json.decimal_head (n + 1) n (by omega)
    exact ⟨_, t, hc, json.digitChar_mem_heads d hd⟩
  | negSucc n => exact ⟨'-', _, rfl, by decide⟩

theorem json.encode_head (x : Value) : ∃ c t, json.encode x = c :: t ∧ c ∈ json.heads := by
  cases x with
  | nil => exact ⟨'n', ['u', 'l', 'l'], by simp [json.encode], by decide⟩
  | bool b =>
    cases b
    · exact ⟨'f', ['a', 'l', 's', 'e'], by simp [json.encode], by decide⟩
    · exact ⟨'t', ['r', 'u', 'e'], by simp [json.encode], by decide⟩
  | number n => simpa [json.encode] using json.encodeInt_head n
  | string s =>
    exact ⟨'"', json.encodeChars s ++ ['"'], by simp [json.encode, json.encodeString], by decide⟩
  | array xs => exact ⟨'[', json.encodeElems xs ++ [']'], by simp [json.encode], by decide⟩
  | object fields =>
    exact ⟨'\x7b', json.encodeFields fields ++ ['\x7d'], by simp [json.encode], by decide⟩

theorem json.decodeValue_nil (fuel : Nat) (rest : Str) :
    json.decodeValue (fuel + 1) ('n' :: 'u' :: 'l' :: 'l' :: rest) = some (Value.nil, rest) := by
  rw [json.decodeValue]
  simp [json.skipSpace, json.isSpace]

theorem json.decodeValue_true (fuel : Nat) (rest : Str) :
    json.decodeValue (fuel + 1) ('t' :: 'r' :: 'u' :: 'e' :: rest)
      = some (Value.bool true, rest) := by
  rw [json.decodeValue]
  simp [json.skipSpace, json.isSpace]

theorem json.decodeValue_false (fuel : Nat) (rest : Str) :
    json.decodeValue (fuel + 1) ('f' :: 'a' :: 'l' :: 's' :: 'e' :: rest)
      = some (Value.bool false, rest) := by
  rw [json.decodeValue]
  simp [json.skipSpace, json.isSpace]

theorem json.decodeValue_string (fuel : Nat) (s : Str) :
    json.decodeValue (fuel + 1) ('"' :: s)
      = match json.decodeChars s with
        | none => none
        | some (str, rest) => some (Value.string str, rest) := by
  rw [json.decodeValue]
  simp [json.skipSpace, json.isSpace]

theorem json.decodeValue_number (fuel : Nat) (c : Char) (s : Str)
    (hc : c = '-' ∨ c.isDigit = true) :
    json.decodeValue (fuel + 1) (c :: s)
      = match json.decodeInt (c :: s) with
        | none => none
        | some (n, rest) => some (Value.number n, rest) := by
  have hne : ∀ d : Char, d ≠ '-' → d.isDigit = false → c ≠ d := by
    intro d h1 h2 hcd
    subst hcd
    rcases hc with hc | hc
    · exact h1 hc
    · rw [hc] at h2; exact absurd h2 (by decide)
  have hsp : json.isSpace c = false := by
    simp only [json.isSpace, Bool.or_eq_false_iff, decide_eq_false_iff_not]
    exact ⟨⟨⟨hne _ (by decide) (by decide), hne _ (by decide) (by decide)⟩,
      hne _ (by decide) (by decide)⟩, hne _ (by decide) (by decide)⟩
  rw [json.decodeValue, json.skipSpace_cons c s hsp]
  simp only [hne 'n' (by decide) (by decide), hne 't' (by decide) (by decide),
    hne 'f' (by decide) (by decide), hne '"' (by decide) (by decide),
    hne '[' (by decide) (by decide), hne '\x7b' (by decide) (by decide), if_false]

theorem json.decodeValue_array_nil (fuel : Nat) (rest : Str) :
    json.decodeValue (fuel + 1) ('[' :: ']' :: rest) = some (Value.array [], rest) := by
  rw [json.decodeValue]
  simp [json.skipSpace, json.isSpace]

theorem json.decodeValue_array_cons (fuel : Nat) (c : Char) (s : Str) (hc : c ∈ json.heads) :
    json.decodeValue (fuel + 1) ('[' :: c :: s)
      = match json.decodeElems fuel (c :: s) with
        | none => none
        | some (xs, rest) => some (Value.array xs, rest) := by
  have h := json.heads_spec c hc
  have hsp : json.skipSpace ('[' :: c :: s) = '[' :: c :: s := json.skipSpace_cons _ _ (by decide)
  rw [json.decodeValue, hsp]
  simp only [json.skipSpace_cons c s h.1, h.2.1, if_false]
  simp

theorem json.decodeValue_object_nil (fuel : Nat) (rest : Str) :
    json.decodeValue (fuel + 1) ('\x7b' :: '\x7d' :: rest) = some (Value.object [], rest) := by
  rw [json.decodeValue]
  simp [json.skipSpace, json.isSpace]

theorem json.decodeValue_object_cons (fuel : Nat) (s : Str) :
    json.decodeValue (fuel + 1) ('\x7b' :: '"' :: s)
      = match json.decodeFields fuel ('"' :: s) with
        | none => none
        | some (fields, rest) => some (Value.object fields, rest) := by
  rw [json.decodeValue]
  simp [json.skipSpace, json.isSpace]

theorem json.decodeElems_more (fuel : Nat) (s rest : Str) (x : Value)
    (h : json.decodeValue fuel s = some (x, ',' :: rest)) :
    json.decodeElems (fuel + 1) s
      = match json.decodeElems fuel rest with
        | none => none
        | some (xs, rest) => some (x :: xs, rest) := by
  rw [json.decodeElems, h]
  simp [json.skipSpace, json.isSpace]

theorem json.decodeElems_last (fuel : Nat) (s rest : Str) (x : Value)
    (h : json.decodeValue fuel s = some (x, ']' :: rest)) :
    json.decodeElems (fuel + 1) s = some ([x], rest) := by
  rw [json.decodeElems, h]
  simp [json.skipSpace, json.isSpace]

theorem json.decodeFields_more (fuel : Nat) (key s rest : Str) (x : Value)
    (h : json.decodeValue fuel s = some (x, ',' :: rest)) :
    json.decodeFields (fuel + 1) (json.encodeString key ++ ':' :: s)
      = match json.decodeFields fuel rest with
        | none => none
        | some (fields, rest) => some ((key, x) :: fields, rest) := by
  rw [json.decodeFields]
  simp [json.encodeString, json.skipSpace, json.isSpace, json.decodeChars_encodeChars, h]

theorem json.decodeFields_last (fuel : Nat) (key s rest : Str) (x : Value)
    (h : json.decodeValue fuel s = some (x, '\x7d' :: rest)) :
    json.decodeFields (fuel + 1) (json.encodeString key ++ ':' :: s) = some ([(key, x)], rest) := by
  rw [json.decodeFields]
  simp [json.encodeString, json.skipSpace, json.isSpace, json.decodeChars_encodeChars, h]

theorem json.head?_sep (c : Char) (rest : Str) (h : c.isDigit = false) :
    ∀ d ∈ (c :: rest).head?, d.isDigit = false := by
  intro d hd
  simp at hd
  rw [← hd]; exact h

theorem json.encodeElems_cons (x : Value) (xs : List Value) :
    json.encodeElems (x :: xs) = json.encode x ++ (match xs with
      | [] => []
      | _ :: _ => ',' :: json.encodeElems xs) := by
  rw [json.encodeElems.eq_def]

theorem json.encodeFields_cons (key : Str) (x : Value) (fields : List (Str × Value)) :
    json.encodeFields ((key, x) :: fields) = json.encodeString key ++ ':' :: json.encode x ++
      (match fields with
      | [] => []
      | _ :: _ => ',' :: json.encodeFields fields) := by
  rw [json.encodeFields.eq_def]

mutual
theorem json.decodeValue_encode : (x : Value) → ∀ (fuel : Nat) (rest : Str), json.nodes x < fuel →
    (∀ c ∈ rest.head?, c.isDigit = false) →
    json.decodeValue fuel (json.encode x ++ rest) = some (x, rest)
  | .nil, fuel, rest, hf, _ => by
    obtain ⟨f, rfl⟩ : ∃ f, fuel = f + 1 := ⟨fuel - 1, by simp [json.nodes] at hf; omega⟩
    simpa [json.encode] using json.decodeValue_nil f rest
  | .bool true, fuel, rest, hf, _ => by
    obtain ⟨f, rfl⟩ : ∃ f, fuel = f + 1 := ⟨fuel - 1, by simp [json.nodes] at hf; omega⟩
    simpa [json.encode] using json.decodeValue_true f rest
  | .bool false, fuel, rest, hf, _ => by
    obtain ⟨f, rfl⟩ : ∃ f, fuel = f + 1 := ⟨fuel - 1, by simp [json.nodes] at hf; omega⟩
    simpa [json.encode] using json.decodeValue_false f rest
  | .number n, fuel, rest, hf, hrest => by
    obtain ⟨f, rfl⟩ : ∃ f, fuel = f + 1 := ⟨fuel - 1, by simp [json.nodes] at hf; omega⟩
    have hint := json.decodeInt_encodeInt n rest hrest
    obtain ⟨c, t, hc, -⟩ := json.encodeInt_head n
    have hcd : c = '-' ∨ c.isDigit = true := by
      rw [hc] at hint
      simp only [List.cons_append, json.decodeInt] at hint
      by_cases h1 : c = '-'
      · exact Or.inl h1
      · right
        by_contra h2
        simp [h1, h2] at hint
    rw [json.encode]
    rw [hc] at hint ⊢
    rw [List.cons_append] at hint ⊢
    rw [json.decodeValue_number f c _ hcd, hint]
  | .string s, fuel, rest, hf, _ => by
    obtain ⟨f, rfl⟩ : ∃ f, fuel = f + 1 := ⟨fuel - 1, by simp [json.nodes] at hf; omega⟩
    simp only [json.encode, json.encodeString, List.cons_append, List.append_assoc,
      List.singleton_append]
    rw [json.decodeValue_string, json.decodeChars_encodeChars]
    simp
  | .array [], fuel, rest, hf, _ => by
    obtain ⟨f, rfl⟩ : ∃ f, fuel = f + 1 := ⟨fuel - 1, by simp [json.nodes] at hf; omega⟩
    simpa [json.encode, json.encodeElems] using json.decodeValue_array_nil f rest
  | .array (x :: xs), fuel, rest, hf, _ => by
    obtain ⟨f, rfl⟩ : ∃ f, fuel = f + 1 := ⟨fuel - 1, by simp [json.nodes] at hf; omega⟩
    have hel := json.decodeElems_encode (x :: xs) (by simp) f rest
      (by simp only [json.nodes] at hf; omega)
    obtain ⟨c, t, hc, hmem⟩ := json.encode_head x
    simp only [json.encode, List.cons_append, List.append_assoc, List.singleton_append]
    rw [json.encodeElems_cons, hc] at hel ⊢
    simp only [List.cons_append] at hel ⊢
    rw [json.decodeValue_array_cons f c _ hmem]
    simp only [List.nil_append]
    rw [hel]
  | .object [], fuel, rest, hf, _ => by
    obtain ⟨f, rfl⟩ : ∃ f, fuel = f + 1 := ⟨fuel - 1, by simp [json.nodes] at hf; omega⟩
    simpa [json.encode, json.encodeFields] using json.decodeValue_object_nil f rest
  | .object ((key, x) :: fields), fuel, rest, hf, _ => by
    obtain ⟨f, rfl⟩ : ∃ f, fuel = f + 1 := ⟨fuel - 1, by simp [json.nodes] at hf; omega⟩
    have hel := json.decodeFields_encode ((key, x) :: fields) (by simp) f rest
      (by simp only [json.nodes] at hf; omega)
    simp only [json.encode, List.cons_append, List.append_assoc, List.singleton_append]
    rw [json.encodeFields_cons, json.encodeString] at hel ⊢
    simp only [List.cons_append] at hel ⊢
    rw [json.decodeValue_object_cons f _]
    simp only [List.nil_append]
    rw [hel]
theorem json.decodeElems_encode : (xs : List Value) → xs ≠ [] → ∀ (fuel : Nat) (rest : Str),
    json.nodesElems xs < fuel →
    json.decodeElems fuel (json.encodeElems xs ++ ']' :: rest) = some (xs, rest)
  | [], h, _, _, _ => absurd rfl h
  | [x], _, fuel, rest, hf => by
    obtain ⟨f, rfl⟩ : ∃ f, fuel = f + 1 := ⟨fuel - 1, by simp [json.nodesElems] at hf; omega⟩
    have hx := json.decodeValue_encode x f (']' :: rest)
      (by simp only [json.nodesElems] at hf; omega) (json.head?_sep _ _ (by decide))
    simp only [json.encodeElems, List.append_nil]
    exact json.decodeElems_last f _ rest x hx
  | x :: y :: ys, _, fuel, rest, hf => by
    obtain ⟨f, rfl⟩ : ∃ f, fuel = f + 1 := ⟨fuel - 1, by simp [json.nodesElems] at hf; omega⟩
    have hx := json.decodeValue_encode x f (',' :: (json.encodeElems (y :: ys) ++ ']' :: rest))
      (by simp only [json.nodesElems] at hf ⊢; omega) (json.head?_sep _ _ (by decide))
    have hys := json.decodeElems_encode (y :: ys) (by simp) f rest
      (by simp only [json.nodesElems] at hf ⊢; omega)
    rw [json.encodeElems_cons]
    simp only [List.append_assoc, List.cons_append]
    rw [json.decodeElems_more f _ _ x hx, hys]
theorem json.decodeFields_encode : (fields : List (Str × Value)) → fields ≠ [] →
    ∀ (fuel : Nat) (rest : Str), json.nodesFields fields < fuel →
    json.decodeFields fuel (json.encodeFields fields ++ '\x7d' :: rest) = some (fields, rest)
  | [], h, _, _, _ => absurd rfl h
  | [(key, x)], _, fuel, rest, hf => by
    obtain ⟨f, rfl⟩ : ∃ f, fuel = f + 1 := ⟨fuel - 1, by simp [json.nodesFields] at hf; omega⟩
    have hx := json.decodeValue_encode x f ('\x7d' :: rest)
      (by simp only [json.nodesFields] at hf; omega) (json.head?_sep _ _ (by decide))
    simp only [json.encodeFields, List.append_nil, List.append_assoc, List.cons_append]
    exact json.decodeFields_last f key _ rest x hx
  | (key, x) :: y :: ys, _, fuel, rest, hf => by
    obtain ⟨f, rfl⟩ : ∃ f, fuel = f + 1 := ⟨fuel - 1, by simp [json.nodesFields] at hf; omega⟩
    have hx := json.decodeValue_encode x f (',' :: (json.encodeFields (y :: ys) ++ '\x7d' :: rest))
      (by simp only [json.nodesFields] at hf ⊢; omega) (json.head?_sep _ _ (by decide))
    have hys := json.decodeFields_encode (y :: ys) (by simp) f rest
      (by simp only [json.nodesFields] at hf ⊢; omega)
    rw [json.encodeFields_cons]
    simp only [List.append_assoc, List.cons_append]
    rw [json.decodeFields_more f key _ _ x hx, hys]
end

mutual
theorem json.nodes_le : (x : Value) → json.nodes x ≤ (json.encode x).length
  | .nil => by simp [json.nodes, json.encode]
  | .bool true => by simp [json.nodes, json.encode]
  | .bool false => by simp [json.nodes, json.encode]
  | .number n => by
    obtain ⟨c, t, hc, -⟩ := json.encodeInt_head n
    simp [json.nodes, json.encode, hc]
  | .string s => by simp [json.nodes, json.encode, json.encodeString]
  | .array xs => by
    have := json.nodesElems_le xs
    simp only [json.nodes, json.encode, List.length_cons, List.length_append,
      List.length_singleton]
    omega
  | .object fields => by
    have := json.nodesFields_le fields
    simp only [json.nodes, json.encode, List.length_cons, List.length_append,
      List.length_singleton]
    omega
theorem json.nodesElems_le : (xs : List Value) →
    json.nodesElems xs ≤ (json.encodeElems xs).length + 1
  | [] => by simp [json.nodesElems]
  | [x] => by
    have := json.nodes_le x
    simp only [json.nodesElems, json.encodeElems, List.append_nil]
    omega
  | x :: y :: ys => by
    have h1 := json.nodes_le x
    have h2 := json.nodesElems_le (y :: ys)
    rw [json.encodeElems_cons]
    simp only [json.nodesElems, List.length_append, List.length_cons] at h2 ⊢
    omega
theorem json.nodesFields_le : (fields : List (Str × Value)) →
    json.nodesFields fields ≤ (json.encodeFields fields).length + 1
  | [] => by simp [json.nodesFields]
  | [(key, x)] => by
    have := json.nodes_le x
    simp only [json.nodesFields, json.encodeFields, List.append_nil, List.length_append,
      List.length_cons]
    omega
  | (key, x) :: y :: ys => by
    have h1 := json.nodes_le x
    have h2 := json.nodesFields_le (y :: ys)
    rw [json.encodeFields_cons]
    simp only [json.nodesFields, List.length_append, List.length_cons] at h2 ⊢
    omega
end

theorem reply.setField_code (rep : reply) (n : Int) :
    rep.setField "code".toList (Value.number n) = some { rep with Code := n } := rfl

theorem reply.setField_msg (rep : reply) (s : Str) :
    rep.setField "msg".toList (Value.string s) = some { rep with Msg := s } := rfl

theorem reply.setField_data (rep : reply) (x : Value) :
    rep.setField "data".toList x = some { rep with Data := x } := rfl

/-- Decoding the line the encoder writes for an envelope gives the envelope
back. -/
theorem json.Unmarshal_Marshal (rep : reply) :
    json.Unmarshal (json.Marshal rep ++ ['\n']) = some rep := by
  have hdec := json.decodeValue_encode rep.toValue ((json.Marshal rep ++ ['\n']).length + 1) ['\n']
    (by
      have := json.nodes_le rep.toValue
      simp only [json.Marshal, List.length_append, List.length_singleton]
      omega)
    (json.head?_sep _ _ (by decide))
  unfold json.Unmarshal
  rw [json.Marshal] at hdec ⊢
  rw [hdec]
  simp only [reply.toValue, json.skipSpace, json.isSpace, reply.setFields]
  have h1 := reply.setField_code { Code := 0, Msg := [], Data := Value.nil } rep.Code
  have h2 := reply.setField_msg { Code := rep.Code, Msg := [], Data := Value.nil } rep.Msg
  have h3 := reply.setField_data { Code := rep.Code, Msg := rep.Msg, Data := Value.nil } rep.Data
  simp only [String.toList] at h1 h2 h3
  simp [h1, h2, h3]

/-! ## What a writer reports after the calls of the codec -/

theorem ResponseWriter.Code_WriteError_of (r : codecRequest) (w : ResponseWriter) (s : Int)
    (e : error) (h : w.calls.filterMap Call.status? = [])
    (hp : codecRequest.WriteError.panic w s e = none) :
    (r.WriteError w s e).Code = (codecRequest.WriteError.rep s e).Code := by
  simp [ResponseWriter.Code, ResponseWriter.calls_WriteError r w s e hp, Call.status?, h]

theorem ResponseWriter.Body_WriteError_of (r : codecRequest) (w : ResponseWriter) (s : Int)
    (e : error) (hp : codecRequest.WriteError.panic w s e = none) :
    (r.WriteError w s e).Body
      = w.Body ++ (json.Marshal (codecRequest.WriteError.rep s e) ++ ['\n']) := by
  simp [ResponseWriter.Body, ResponseWriter.calls_WriteError r w s e hp, Call.bytes]

theorem ResponseWriter.Code_WriteResponse_of (r : codecRequest) (w : ResponseWriter) (x : Value)
    (h : w.calls.filterMap Call.status? = []) : (r.WriteResponse w x).Code = 200 := by
  simp [ResponseWriter.Code, ResponseWriter.calls_WriteResponse, Call.status?, h]

theorem ResponseWriter.Body_WriteResponse_of (r : codecRequest) (w : ResponseWriter) (x : Value) :
    (r.WriteResponse w x).Body
      = w.Body ++ (json.Marshal { Code := 200, Msg := [], Data := x } ++ ['\n']) := by
  simp [ResponseWriter.Body, ResponseWriter.calls_WriteResponse, Call.bytes]

theorem ResponseWriter.Code_WriteError (r : codecRequest) (s : Int) (e : error)
    (hp : codecRequest.WriteError.panic ResponseWriter.fresh s e = none) :
    (r.WriteError ResponseWriter.fresh s e).Code = (codecRequest.WriteError.rep s e).Code :=
  ResponseWriter.Code_WriteError_of r ResponseWriter.fresh s e rfl hp

theorem ResponseWriter.Body_WriteError (r : codecRequest) (s : Int) (e : error)
    (hp : codecRequest.WriteError.panic ResponseWriter.fresh s e = none) :
    (r.WriteError ResponseWriter.fresh s e).Body
      = json.Marshal (codecRequest.WriteError.rep s e) ++ ['\n'] := by
  rw [ResponseWriter.Body_WriteError_of r ResponseWriter.fresh s e hp]
  rfl

theorem ResponseWriter.Code_WriteResponse (r : codecRequest) (x : Value) :
    (r.WriteResponse ResponseWriter.fresh x).Code = 200 :=
  ResponseWriter.Code_WriteResponse_of r ResponseWriter.fresh x rfl

theorem ResponseWriter.Body_WriteResponse (r : codecRequest) (x : Value) :
    (r.WriteResponse ResponseWriter.fresh x).Body
      = json.Marshal { Code := 200, Msg := [], Data := x } ++ ['\n'] := by
  rw [ResponseWriter.Body_WriteResponse_of]
  rfl

theorem codecRequest.WriteError.panic_errorString (w : ResponseWriter) (s : Int) (text : Str)
    (h1 : 100 ≤ s) (h2 : s ≤ 999) :
    codecRequest.WriteError.panic w s (error.errorString text) = none :=
  codecRequest.WriteError.panic_code_in_range w s _ h1 h2

theorem codecRequest.WriteError.panic_fresh (s : Int) (e : error)
    (h : (codecRequest.WriteError.rep s e).Code < 100 ∨ 999 < (codecRequest.WriteError.rep s e).Code) :
    codecRequest.WriteError.panic ResponseWriter.fresh s e
      = some (PanicValue.string ("invalid WriteHeader code ".toList
          ++ strconv.Itoa (codecRequest.WriteError.rep s e).Code)) := by
  have hw : (ResponseWriter.fresh.HeaderSet "Content-Type".toList
      "application/json".toList).wroteHeader = false := rfl
  have hc : (codecRequest.WriteError.rep s e).Code < 100
      ∨ (codecRequest.WriteError.rep s e).Code > 999 := by omega
  simp only [codecRequest.WriteError.panic, ResponseWriter.WriteHeader.panic, hw,
    checkWriteHeaderCode, hc, if_true, Bool.false_eq_true, if_false]

/-! ## codec.go: the claims -/

/-- C1, the counterexample: `WriteError` called with status 400 and the error
`NewError(0, "zero")` takes 0 as the code; the writer's `WriteHeader(0)`
panics with "invalid WriteHeader code 0", so only the content type is set: no
status line and no envelope are written. -/
theorem codecRequest.WriteError_code_zero_panics :
    codecRequest.WriteError.panic ResponseWriter.fresh 400 (NewError 0 "zero".toList)
      = some (PanicValue.string "invalid WriteHeader code 0".toList)
    ∧ (codecRequest.WriteError { Request := httptest.NewRequest "/hello/Hello".toList [] [] }
        ResponseWriter.fresh 400 (NewError 0 "zero".toList)).calls
      = [Call.HeaderSet "Content-Type".toList "application/json".toList]
    ∧ (codecRequest.WriteError { Request := httptest.NewRequest "/hello/Hello".toList [] [] }
        ResponseWriter.fresh 400 (NewError 0 "zero".toList)).Body = []
    ∧ json.Unmarshal (codecRequest.WriteError
        { Request := httptest.NewRequest "/hello/Hello".toList [] [] }
        ResponseWriter.fresh 400 (NewError 0 "zero".toList)).Body = none :=
  ⟨rfl, rfl, rfl, rfl⟩

/-- C1, as amended: for every status `s` and every error `e` whose code (the
code of an `*Error` or `*ErrorWithData`, `s` for any other error) lies in
100..999, `codecRequest.WriteError` does not panic, sets the JSON content
type, writes the status line `rep.Code` and then the encoded envelope `rep`,
where `rep.Msg` is `e.Error()`, `rep.Code` is that code and `rep.Data` is the
data of an `*ErrorWithData` and nil otherwise; on a fresh writer the response
has that status and its body decodes to that envelope. In particular
`NewError(440, "bad return")` passed with 400 gives status 440, msg "bad
return" and no data, as does the method `HelloError` of the example server,
and a plain error passed with 400 gives status 400. For a code outside
100..999 the `WriteHeader` of a fresh writer panics and nothing but the
content type is set. -/
theorem codecRequest.WriteError_envelope (r : codecRequest) (w : ResponseWriter) (s : Int)
    (e : error) (hlo : 100 ≤ (codecRequest.WriteError.rep s e).Code)
    (hhi : (codecRequest.WriteError.rep s e).Code ≤ 999) :
    codecRequest.WriteError.panic w s e = none
    ∧ (r.WriteError w s e).calls = w.calls ++
        [Call.HeaderSet "Content-Type".toList "application/json".toList,
          Call.WriteHeader (codecRequest.WriteError.rep s e).Code,
          Call.Write (json.Marshal (codecRequest.WriteError.rep s e) ++ ['\n'])]
    ∧ (codecRequest.WriteError.rep s e).Msg = e.Error
    ∧ (r.WriteError ResponseWriter.fresh s e).Code = (codecRequest.WriteError.rep s e).Code
    ∧ json.Unmarshal (r.WriteError ResponseWriter.fresh s e).Body
        = some (codecRequest.WriteError.rep s e)
    ∧ (∀ (status : Int) (text : Str), codecRequest.WriteError.rep status (error.errorString text)
        = { Code := status, Msg := text, Data := Value.nil })
    ∧ (∀ (status code : Int) (msg : Str), codecRequest.WriteError.rep status (NewError code msg)
        = { Code := code, Msg := msg, Data := Value.nil })
    ∧ (∀ (status code : Int) (msg : Str) (data : Value),
        codecRequest.WriteError.rep status (NewErrorWithData code msg data)
        = { Code := code, Msg := msg, Data := data })
    ∧ (r.WriteError ResponseWriter.fresh 400 (NewError 440 "bad return".toList)).Code = 440
    ∧ json.Unmarshal
        (r.WriteError ResponseWriter.fresh 400 (NewError 440 "bad return".toList)).Body
        = some { Code := 440, Msg := "bad return".toList, Data := Value.nil }
    ∧ (∀ text : Str, (r.WriteError ResponseWriter.fresh 400 (error.errorString text)).Code = 400)
    ∧ (helloworld.main.ServeHTTP helloworld.lib ResponseWriter.fresh
        (httptest.NewRequest "/hello/HelloError".toList "application/json".toList
          "\x7b\"Name\":\"world\"\x7d".toList)).w.Code = 440
    ∧ (helloworld.main.ServeHTTP helloworld.lib ResponseWriter.fresh
        (httptest.NewRequest "/hello/HelloError".toList "application/json".toList
          "\x7b\"Name\":\"world\"\x7d".toList)).w.Body
        = "\x7b\"code\":440,\"msg\":\"bad return\",\"data\":null\x7d\n".toList
    ∧ (∀ (status : Int) (err : error),
        (codecRequest.WriteError.rep status err).Code < 100
          ∨ 999 < (codecRequest.WriteError.rep status err).Code →
        codecRequest.WriteError.panic ResponseWriter.fresh status err
          = some (PanicValue.string ("invalid WriteHeader code ".toList
              ++ strconv.Itoa (codecRequest.WriteError.rep status err).Code))
        ∧ (r.WriteError ResponseWriter.fresh status err).calls
          = [Call.HeaderSet "Content-Type".toList "application/json".toList]
        ∧ (r.WriteError ResponseWriter.fresh status err).Body = []) := by
  have hp : ∀ w, codecRequest.WriteError.panic w s e = none :=
    fun w => codecRequest.WriteError.panic_code_in_range w s e hlo hhi
  have h440 : codecRequest.WriteError.panic ResponseWriter.fresh 400
      (NewError 440 "bad return".toList) = none := rfl
  refine ⟨hp w, ResponseWriter.calls_WriteError r w s e (hp w), ?_,
    ResponseWriter.Code_WriteError r s e (hp _), ?_, fun _ _ => rfl, fun _ _ _ => rfl,
    fun _ _ _ _ => rfl, ?_, ?_, ?_, rfl, rfl, ?_⟩
  · cases e <;> rfl
  · rw [ResponseWriter.Body_WriteError r s e (hp _), json.Unmarshal_Marshal]
  · rw [ResponseWriter.Code_WriteError r _ _ h440]; rfl
  · rw [ResponseWriter.Body_WriteError r _ _ h440, json.Unmarshal_Marshal]; rfl
  · intro text
    rw [ResponseWriter.Code_WriteError r _ _
      (codecRequest.WriteError.panic_errorString _ 400 text (by decide) (by decide))]
    rfl
  · intro status err hout
    have hpanic := codecRequest.WriteError.panic_fresh status err hout
    have hcalls := ResponseWriter.calls_WriteError_panic r ResponseWriter.fresh status err _ hpanic
    have hcalls' : (r.WriteError ResponseWriter.fresh status err).calls
        = [Call.HeaderSet "Content-Type".toList "application/json".toList] := by
      rw [hcalls]; rfl
    refine ⟨hpanic, hcalls', ?_⟩
    simp only [ResponseWriter.Body, hcalls']
    rfl

/-- The call `WriteError(w, 400, NewError(440, "bad return"))` on a fresh
writer: the code 440 lies in 100..999, and the status written is 440. -/
theorem codecRequest.WriteError_envelope_witness :
    (codecRequest.WriteError { Request := httptest.NewRequest "/hello/HelloError".toList [] [] }
      ResponseWriter.fresh 400 (NewError 440 "bad return".toList)).Code = 440
    ∧ codecRequest.WriteError.panic ResponseWriter.fresh 400 (NewError 440 "bad return".toList)
      = none :=
  have h := codecRequest.WriteError_envelope
    { Request := httptest.NewRequest "/hello/HelloError".toList [] [] } ResponseWriter.fresh 400
    (NewError 440 "bad return".toList) (by decide) (by decide)
  ⟨h.2.2.2.1, h.1⟩

/-! ## server.go: the errors of the pipeline and the exits of `ServeHTTP` -/

theorem codecRequest.Method_error (c : codecRequest) (err : error)
    (h : c.Method = .error err) : err = error.errorString "bad url".toList := by
  unfold codecRequest.Method at h
  by_cases hlt : (strings.Split c.Request.Path '/').length < 3
  · simp only [hlt, if_true] at h
    cases h
    rfl
  · simp [hlt] at h

theorem serviceMap.get_error (m : serviceMap) (method : Str) (err : error)
    (h : m.get method = .error err) : ∃ text, err = error.errorString text := by
  unfold serviceMap.get at h
  simp only at h
  split at h
  · cases h; exact ⟨_, rfl⟩
  · split at h
    · cases h; exact ⟨_, rfl⟩
    · cases h

theorem CodecRequest.ReadRequest_error (lib : Lib) (c : CodecRequest) (t : reflectType)
    (err : error) (h : c.ReadRequest lib t = .error err) :
    ∃ text, err = error.errorString text := by
  unfold CodecRequest.ReadRequest at h
  cases c with
  | _JSONCodecRequest r =>
    simp only at h
    split at h
    · cases h; exact ⟨_, rfl⟩
    · cases h
  | formCodecRequest r =>
    simp only at h
    split at h
    · cases h; exact ⟨_, rfl⟩
    · cases h

theorem Server.validate_error (s : Server) (t : reflectType) (args : Value) (err : error)
    (h : s.validate t args = .ok (some err)) : ∃ text, err = error.errorString text := by
  unfold Server.validate at h
  split at h
  · split at h
    · cases h
    · rename_i v _
      cases hs : v.Struct args with
      | none => simp [hs] at h
      | some text =>
        simp only [hs, Option.map_some', Except.ok.injEq, Option.some.injEq] at h
        exact ⟨text, h.symm⟩
  · cases h

theorem codecRequest.WriteError.rep_errorString (status : Int) (err : error)
    (h : ∃ text, err = error.errorString text) :
    codecRequest.WriteError.rep status err = { Code := status, Msg := err.Error, Data := Value.nil } := by
  obtain ⟨text, rfl⟩ := h
  rfl

theorem Codec.NewRequest_Method (codec : Codec) (r : Request) :
    (codec.NewRequest r).Method = codecRequest.Method { Request := r } := by
  cases codec <;> rfl

theorem codecRequest.WriteError.panic_of_errorString (w : ResponseWriter) (s : Int) (err : error)
    (h : ∃ text, err = error.errorString text) (h1 : 100 ≤ s) (h2 : s ≤ 999) :
    codecRequest.WriteError.panic w s err = none := by
  obtain ⟨text, rfl⟩ := h
  exact codecRequest.WriteError.panic_errorString w s text h1 h2

theorem Server.serveWith_bad_url (lib : Lib) (s : Server) (w : ResponseWriter) (r : Request)
    (codec : Codec) (err : error) (h : (codec.NewRequest r).Method = .error err) :
    s.serveWith lib w r codec
      = { w := (codec.NewRequest r).WriteError w 400 err, events := [], panic := none } := by
  have hk : ∃ text, err = error.errorString text := by
    rw [Codec.NewRequest_Method] at h
    exact ⟨_, codecRequest.Method_error _ _ h⟩
  simp only [Server.serveWith, h,
    codecRequest.WriteError.panic_of_errorString w 400 err hk (by decide) (by decide)]

theorem Server.serveWith_bad_method (lib : Lib) (s : Server) (w : ResponseWriter) (r : Request)
    (codec : Codec) (method : Str) (v : PanicValue)
    (h : (codec.NewRequest r).Method = .ok method) (htr : s.newTrace method = .error v) :
    s.serveWith lib w r codec = { w := w, events := [], panic := some v } := by
  simp only [Server.serveWith, h, htr]

theorem Server.serveWith_not_found (lib : Lib) (s : Server) (w : ResponseWriter) (r : Request)
    (codec : Codec) (method : Str) (tr : Str × Str) (err : error)
    (h : (codec.NewRequest r).Method = .ok method) (htr : s.newTrace method = .ok tr)
    (hget : s.services.get method = .error err) :
    s.serveWith lib w r codec
      = { w := (codec.NewRequest r).WriteError w 404 err
          events := [Event.traceNew tr.1 tr.2, Event.get method,
            Event.traceLazyPrintf ("method not found:".toList ++ method),
            Event.traceSetError, Event.traceFinish]
          panic := none } := by
  simp only [Server.serveWith, h, htr, hget,
    codecRequest.WriteError.panic_of_errorString w 404 err (serviceMap.get_error _ _ _ hget)
      (by decide) (by decide)]
  rfl

theorem Server.serveWith_read_error (lib : Lib) (s : Server) (w : ResponseWriter) (r : Request)
    (codec : Codec) (method : Str) (tr : Str × Str) (svc : service) (ms : serviceMethod)
    (err : error)
    (h : (codec.NewRequest r).Method = .ok method) (htr : s.newTrace method = .ok tr)
    (hget : s.services.get method = .ok (svc, ms))
    (hread : (codec.NewRequest r).ReadRequest lib ms.argsType = .error err) :
    s.serveWith lib w r codec
      = { w := (codec.NewRequest r).WriteError w 400 err
          events := [Event.traceNew tr.1 tr.2, Event.get method,
            Event.traceLazyPrintf ("read request error:".toList ++ err.Error),
            Event.traceSetError, Event.traceFinish]
          panic := none } := by
  simp only [Server.serveWith, h, htr, hget, hread,
    codecRequest.WriteError.panic_of_errorString w 400 err
      (CodecRequest.ReadRequest_error _ _ _ _ hread) (by decide) (by decide)]
  rfl

theorem Server.serveWith_invalid (lib : Lib) (s : Server) (w : ResponseWriter) (r : Request)
    (codec : Codec) (method : Str) (tr : Str × Str) (svc : service) (ms : serviceMethod)
    (args : Value) (err : error)
    (h : (codec.NewRequest r).Method = .ok method) (htr : s.newTrace method = .ok tr)
    (hget : s.services.get method = .ok (svc, ms))
    (hread : (codec.NewRequest r).ReadRequest lib ms.argsType = .ok args)
    (hval : s.validate ms.argsType args = .ok (some err)) :
    s.serveWith lib w r codec
      = { w := (codec.NewRequest r).WriteError w 400 err
          events := [Event.traceNew tr.1 tr.2, Event.get method,
            Event.traceLazyPrintf ("validate request error:".toList ++ err.Error),
            Event.traceSetError, Event.traceFinish]
          panic := none } := by
  simp only [Server.serveWith, h, htr, hget, hread, hval,
    codecRequest.WriteError.panic_of_errorString w 400 err
      (Server.validate_error _ _ _ _ hval) (by decide) (by decide)]
  rfl

theorem Server.serveWith_nil_validator (lib : Lib) (s : Server) (w : ResponseWriter)
    (r : Request) (codec : Codec) (method : Str) (tr : Str × Str) (svc : service)
    (ms : serviceMethod) (args : Value) (v : PanicValue)
    (h : (codec.NewRequest r).Method = .ok method) (htr : s.newTrace method = .ok tr)
    (hget : s.services.get method = .ok (svc, ms))
    (hread : (codec.NewRequest r).ReadRequest lib ms.argsType = .ok args)
    (hval : s.validate ms.argsType args = .error v) :
    s.serveWith lib w r codec
      = { w := w, events := [Event.traceNew tr.1 tr.2, Event.get method, Event.traceFinish]
          panic := some v } := by
  simp only [Server.serveWith, h, htr, hget, hread, hval]
  rfl

theorem Server.recovered_logged (lib : Lib) (s : Server) (r : Request) (codecReq : CodecRequest)
    (w : ResponseWriter) (ev : List Event) (v : PanicValue) (errorLog : Logger)
    (hlog : s.opt.ErrorLog = some errorLog) :
    s.recovered lib r codecReq w ev v
      = { w := codecReq.WriteError w 500 (error.errorString v.format)
          events := ev ++ [Event.errorLog ("gozilla: panic serving ".toList ++ r.RemoteAddr
            ++ ": ".toList ++ v.format ++ "\n".toList ++ lib.Stack), Event.traceFinish]
          panic := none } := by
  simp only [Server.recovered, hlog,
    codecRequest.WriteError.panic_errorString w 500 v.format (by decide) (by decide)]

theorem Server.recovered_nil_ErrorLog (lib : Lib) (s : Server) (r : Request)
    (codecReq : CodecRequest) (w : ResponseWriter) (ev : List Event) (v : PanicValue)
    (hlog : s.opt.ErrorLog = none) :
    s.recovered lib r codecReq w ev v
      = { w := w, events := ev ++ [Event.traceFinish], panic := some nilDereference } := by
  simp only [Server.recovered, hlog]

theorem Server.serveWith_call (lib : Lib) (s : Server) (w : ResponseWriter) (r : Request)
    (codec : Codec) (method : Str) (tr : Str × Str) (svc : service) (ms : serviceMethod)
    (args : Value)
    (h : (codec.NewRequest r).Method = .ok method) (htr : s.newTrace method = .ok tr)
    (hget : s.services.get method = .ok (svc, ms))
    (hread : (codec.NewRequest r).ReadRequest lib ms.argsType = .ok args)
    (hval : s.validate ms.argsType args = .ok none) :
    s.serveWith lib w r codec
      = match ms.method r args with
        | .panicked v =>
          s.recovered lib r (codec.NewRequest r) w
            [Event.traceNew tr.1 tr.2, Event.get method, Event.Call method args] v
        | .returned value none =>
          { w := (codec.NewRequest r).WriteResponse
              (w.HeaderSet "x-content-type-options".toList "nosniff".toList) value
            events := [Event.traceNew tr.1 tr.2, Event.get method, Event.Call method args,
              Event.traceFinish]
            panic := none }
        | .returned _ (some errResult) =>
          match codecRequest.WriteError.panic
              (w.HeaderSet "x-content-type-options".toList "nosniff".toList) 400 errResult with
          | none =>
            { w := (codec.NewRequest r).WriteError
                (w.HeaderSet "x-content-type-options".toList "nosniff".toList) 400 errResult
              events := [Event.traceNew tr.1 tr.2, Event.get method, Event.Call method args,
                Event.traceLazyPrintf ("call error:".toList ++ errResult.Error),
                Event.traceSetError, Event.traceFinish]
              panic := none }
          | some v =>
            s.recovered lib r (codec.NewRequest r)
              ((codec.NewRequest r).WriteError
                (w.HeaderSet "x-content-type-options".toList "nosniff".toList) 400 errResult)
              [Event.traceNew tr.1 tr.2, Event.get method, Event.Call method args,
                Event.traceLazyPrintf ("call error:".toList ++ errResult.Error),
                Event.traceSetError] v := by
  simp only [Server.serveWith, h, htr, hget, hread, hval]
  cases ms.method r args with
  | panicked v => rfl
  | returned value err =>
    cases err with
    | none => rfl
    | some errResult =>
      simp only
      cases codecRequest.WriteError.panic
        (w.HeaderSet "x-content-type-options".toList "nosniff".toList) 400 errResult <;> rfl

theorem Server.ServeHTTP_of_codec (lib : Lib) (s : Server) (w : ResponseWriter) (r : Request)
    (codec : Codec) (h : s.selectCodec lib r = .ok (some codec)) :
    s.ServeHTTP lib w r = s.serveWith lib w r codec := by
  simp only [Server.ServeHTTP, h]

/-- C2: for every URL path, `Method()` splits it on "/"; with fewer than 3
segments it fails with the error "bad url", which `ServeHTTP` (once a codec is
chosen) reports as the envelope with status 400 without opening a span or
looking anything up; with 3 segments or more it returns segment 1, a dot and
segment 2, whatever the later segments are, so "/svc/m" and
"/svc/m/extra/more" both give "svc.m". -/
theorem codecRequest.Method_segments (r : Gozilla.Request) :
    ((strings.Split r.Path '/').length < 3 →
      codecRequest.Method { Request := r } = .error (errors.New "bad url".toList)
      ∧ ∀ (lib : Lib) (s : Server) (w : ResponseWriter) (codec : Codec),
          s.selectCodec lib r = .ok (some codec) →
          s.ServeHTTP lib w r
            = { w := (codec.NewRequest r).WriteError w 400 (errors.New "bad url".toList)
                events := [], panic := none }
          ∧ (s.ServeHTTP lib ResponseWriter.fresh r).w.Code = 400
          ∧ json.Unmarshal (s.ServeHTTP lib ResponseWriter.fresh r).w.Body
              = some { Code := 400, Msg := "bad url".toList, Data := Value.nil })
    ∧ (3 ≤ (strings.Split r.Path '/').length →
      codecRequest.Method { Request := r }
        = .ok ((strings.Split r.Path '/').getD 1 [] ++ ".".toList
            ++ (strings.Split r.Path '/').getD 2 []))
    ∧ (∀ (seg0 seg1 seg2 : Str) (later : List Str),
      strings.Split r.Path '/' = seg0 :: seg1 :: seg2 :: later →
      codecRequest.Method { Request := r } = .ok (seg1 ++ ".".toList ++ seg2))
    ∧ (∀ (service method rest : Str), '/' ∉ service → '/' ∉ method →
      (r.Path = '/' :: service ++ '/' :: method
        ∨ r.Path = '/' :: service ++ '/' :: method ++ '/' :: rest) →
      codecRequest.Method { Request := r } = .ok (service ++ ".".toList ++ method))
    ∧ codecRequest.Method { Request := httptest.NewRequest "/svc/m".toList [] [] }
        = .ok "svc.m".toList
    ∧ codecRequest.Method { Request := httptest.NewRequest "/svc/m/extra/more".toList [] [] }
        = .ok "svc.m".toList
    ∧ codecRequest.Method { Request := httptest.NewRequest "/svc".toList [] [] }
        = .error (errors.New "bad url".toList) := by
  have hseg : ∀ (seg0 seg1 seg2 : Str) (later : List Str),
      strings.Split r.Path '/' = seg0 :: seg1 :: seg2 :: later →
      codecRequest.Method { Request := r } = .ok (seg1 ++ ".".toList ++ seg2) := by
    intro seg0 seg1 seg2 later h
    simp [codecRequest.Method, h]
  refine ⟨?_, ?_, hseg, ?_, rfl, rfl, rfl⟩
  · intro hlt
    have hm : codecRequest.Method { Request := r } = .error (errors.New "bad url".toList) := by
      simp [codecRequest.Method, hlt]
    refine ⟨hm, ?_⟩
    intro lib s w codec hsel
    have hserve : ∀ w, s.ServeHTTP lib w r
        = { w := (codec.NewRequest r).WriteError w 400 (errors.New "bad url".toList)
            events := [], panic := none } := by
      intro w
      rw [Server.ServeHTTP_of_codec lib s w r codec hsel]
      exact Server.serveWith_bad_url lib s w r codec _ (by rw [Codec.NewRequest_Method, hm])
    refine ⟨hserve w, ?_, ?_⟩
    · rw [hserve]
      simp only [CodecRequest.WriteError]
      rw [ResponseWriter.Code_WriteError _ 400 (errors.New "bad url".toList) rfl]; rfl
    · rw [hserve]
      simp only [CodecRequest.WriteError]
      rw [ResponseWriter.Body_WriteError _ 400 (errors.New "bad url".toList) rfl,
        json.Unmarshal_Marshal]; rfl
  · intro hge
    have : ¬ (strings.Split r.Path '/').length < 3 := by omega
    simp [codecRequest.Method, this]
  · intro service method rest hs hm hpath
    rcases hpath with hpath | hpath
    · apply hseg [] service method []
      rw [hpath]
      have h1 := strings.Split_append [] (service ++ '/' :: method) '/' (by simp)
      have h2 := strings.Split_append service method '/' hs
      have h3 := strings.Split_single method '/' hm
      simp only [List.nil_append] at h1
      simp only [List.cons_append]
      rw [h1, h2, h3]
    · apply hseg [] service method (strings.Split rest '/')
      rw [hpath]
      have h1 := strings.Split_append [] (service ++ '/' :: method ++ '/' :: rest) '/' (by simp)
      have h2 := strings.Split_append service (method ++ '/' :: rest) '/' hs
      have h3 := strings.Split_append method rest '/' hm
      simp only [List.nil_append, List.append_assoc, List.cons_append] at h1 h2 ⊢
      rw [h1, h2, h3]

theorem strings.Index_append (a b : Str) (sep : Char) (h : sep ∉ a) :
    strings.Index (a ++ sep :: b) sep = (a.length : Int) := by
  have hmem : sep ∈ a ++ sep :: b := by simp
  have hidx : List.indexOf sep (a ++ sep :: b) = a.length := by
    induction a with
    | nil => simp
    | cons c a ih =>
      have hc : c ≠ sep := fun hc => h (by simp [hc])
      have ha : sep ∉ a := fun ha => h (by simp [ha])
      simp [List.indexOf_cons_ne _ hc, ih ha]
  simp only [strings.Index, hmem, if_true, hidx]

theorem strings.Index_none (s : Str) (sep : Char) (h : sep ∉ s) : strings.Index s sep = -1 := by
  simp [strings.Index, h]

theorem Server.contentType_cut (r : Request) (a b : Str) (h : r.ContentType = a ++ ';' :: b)
    (ha : ';' ∉ a) : Server.contentType r = a := by
  have hidx := strings.Index_append a b ';' ha
  simp only [Server.contentType, h, hidx]
  have : ((a.length : Nat) : Int) ≠ -1 := by omega
  simp [this]

theorem Server.contentType_whole (r : Request) (h : ';' ∉ r.ContentType) :
    Server.contentType r = r.ContentType := by
  simp [Server.contentType, strings.Index_none _ _ h]

theorem WriteError.panic_status_in_range (w : ResponseWriter) (status : Int) (h1 : 100 ≤ status)
    (h2 : status ≤ 999) : WriteError.panic w status = none :=
  ResponseWriter.WriteHeader.panic_in_range w status h1 h2

theorem ResponseWriter.calls_WriteError_plain (w : ResponseWriter) (status : Int) (msg : Str)
    (hp : ResponseWriter.WriteHeader.panic w status = none) :
    (WriteError w status msg).calls = w.calls ++
      [Call.WriteHeader status,
        Call.HeaderSet "Content-Type".toList "text/plain; charset=utf-8".toList,
        Call.Write msg] := by
  simp only [WriteError, hp, ResponseWriter.Write, ResponseWriter.HeaderSet]
  rw [ResponseWriter.calls_WriteHeader _ _ hp]
  simp

theorem ResponseWriter.Code_WriteError_plain (status : Int) (msg : Str) (h1 : 100 ≤ status)
    (h2 : status ≤ 999) : (WriteError ResponseWriter.fresh status msg).Code = status := by
  have hp := ResponseWriter.WriteHeader.panic_in_range ResponseWriter.fresh status h1 h2
  have hc := ResponseWriter.calls_WriteError_plain ResponseWriter.fresh status msg hp
  simp only [ResponseWriter.Code, hc]
  rfl

theorem ResponseWriter.Body_WriteError_plain (status : Int) (msg : Str) (h1 : 100 ≤ status)
    (h2 : status ≤ 999) : (WriteError ResponseWriter.fresh status msg).Body = msg := by
  have hp := ResponseWriter.WriteHeader.panic_in_range ResponseWriter.fresh status h1 h2
  have hc := ResponseWriter.calls_WriteError_plain ResponseWriter.fresh status msg hp
  simp only [ResponseWriter.Body, hc]
  simp [ResponseWriter.fresh, Call.bytes]

theorem Server.ServeHTTP_unsupported (lib : Lib) (s : Server) (w : ResponseWriter) (r : Request)
    (h : s.selectCodec lib r = .error ()) :
    s.ServeHTTP lib w r
      = { w := WriteError w 415
            ("rpc: unrecognized Content-Type: ".toList ++ Server.contentType r)
          events := [], panic := none } := by
  simp only [Server.ServeHTTP, h, WriteError.panic_status_in_range w 415 (by decide) (by decide)]

theorem Server.selectCodec_none (lib : Lib) (s : Server) (r : Request)
    (h1 : ¬ (Server.contentType r = [] ∧ s.codecs.length = 1))
    (h2 : s.codecs.lookup (lib.ToLower (Server.contentType r)) = none) :
    s.selectCodec lib r = .error () := by
  simp only [Server.selectCodec, h1, if_false, h2]

/-- C3: for every table of codecs and every Content-Type header, `ServeHTTP`
cuts the header at its first ';'; if what is left is empty and exactly one
codec is registered, the request goes on with that codec; otherwise it goes on
with the codec registered under the lower-cased content type, and
`RegisterCodec` stores its codec under the lower-cased key, so a header that
lower-cases to the same key finds it; and if no codec is registered under that
key the request ends with status 415, the text "rpc: unrecognized
Content-Type: " and the content type as body, and nothing else happens: no
method is looked up or invoked. Hence with more than one codec registered and
a content type matching none of them the status is 415. -/
theorem Server.ServeHTTP_codec_selection (lib : Lib) (s : Server) (w : ResponseWriter)
    (r : Request) :
    (∀ a b : Str, r.ContentType = a ++ ';' :: b → ';' ∉ a → Server.contentType r = a)
    ∧ (';' ∉ r.ContentType → Server.contentType r = r.ContentType)
    ∧ (Server.contentType r = [] → ∀ (key : Str) (codec : Codec), s.codecs = [(key, codec)] →
        s.ServeHTTP lib w r = s.serveWith lib w r codec)
    ∧ (¬ (Server.contentType r = [] ∧ s.codecs.length = 1) → ∀ codec : Codec,
        s.codecs.lookup (lib.ToLower (Server.contentType r)) = some codec →
        s.ServeHTTP lib w r = s.serveWith lib w r codec)
    ∧ (¬ (Server.contentType r = [] ∧ s.codecs.length = 1) →
        s.codecs.lookup (lib.ToLower (Server.contentType r)) = none →
        s.ServeHTTP lib w r
          = { w := WriteError w 415
                ("rpc: unrecognized Content-Type: ".toList ++ Server.contentType r)
              events := [], panic := none }
        ∧ (s.ServeHTTP lib ResponseWriter.fresh r).w.Code = 415
        ∧ (s.ServeHTTP lib ResponseWriter.fresh r).w.Body
            = "rpc: unrecognized Content-Type: ".toList ++ Server.contentType r
        ∧ (s.ServeHTTP lib ResponseWriter.fresh r).events = []
        ∧ (s.ServeHTTP lib ResponseWriter.fresh r).panic = none)
    ∧ (1 < s.codecs.length →
        s.codecs.lookup (lib.ToLower (Server.contentType r)) = none →
        (s.ServeHTTP lib ResponseWriter.fresh r).w.Code = 415)
    ∧ (∀ (codec : Codec) (contentType : Str),
        (s.RegisterCodec lib codec contentType).codecs.lookup (lib.ToLower contentType)
          = some codec)
    ∧ (∀ (codec : Codec) (contentType : Str),
        lib.ToLower (Server.contentType r) = lib.ToLower contentType →
        (s.RegisterCodec lib codec contentType).ServeHTTP lib w r
          = (s.RegisterCodec lib codec contentType).serveWith lib w r codec) := by
  have h415 : ∀ (s : Server), ¬ (Server.contentType r = [] ∧ s.codecs.length = 1) →
      s.codecs.lookup (lib.ToLower (Server.contentType r)) = none →
      (s.ServeHTTP lib ResponseWriter.fresh r).w.Code = 415 := by
    intro s h1 h2
    rw [Server.ServeHTTP_unsupported lib s _ r (Server.selectCodec_none lib s r h1 h2)]
    exact ResponseWriter.Code_WriteError_plain _ _ (by decide) (by decide)
  refine ⟨fun a b h ha => Server.contentType_cut r a b h ha, Server.contentType_whole r,
    ?_, ?_, ?_, ?_, ?_, ?_⟩
  · intro hct key codec hcodecs
    apply Server.ServeHTTP_of_codec
    simp [Server.selectCodec, hct, hcodecs]
  · intro h1 codec h2
    apply Server.ServeHTTP_of_codec
    simp only [Server.selectCodec, h1, if_false, h2]
  · intro h1 h2
    have hsel := Server.selectCodec_none lib s r h1 h2
    refine ⟨Server.ServeHTTP_unsupported lib s w r hsel, h415 s h1 h2, ?_, ?_, ?_⟩
    · rw [Server.ServeHTTP_unsupported lib s _ r hsel]
      exact ResponseWriter.Body_WriteError_plain _ _ (by decide) (by decide)
    · rw [Server.ServeHTTP_unsupported lib s _ r hsel]
    · rw [Server.ServeHTTP_unsupported lib s _ r hsel]
  · intro hlen h2
    exact h415 s (fun h => by omega) h2
  · intro codec contentType
    simp [Server.RegisterCodec, List.lookup]
  · intro codec contentType hlow
    apply Server.ServeHTTP_of_codec
    have hfold : ∀ tl : List (Str × Codec), tl.length + 1 = 1 →
        List.foldl (fun _ kv => some kv.2) (some codec) tl = some codec := by
      intro tl h
      cases tl with
      | nil => rfl
      | cons _ _ => simp at h
    simp only [Server.selectCodec]
    by_cases hc : Server.contentType r = []
        ∧ (s.RegisterCodec lib codec contentType).codecs.length = 1
    · -- the header is empty and this is the only codec
      simp only [hc, and_self, if_true]
      have hlen := hc.2
      simp only [Server.RegisterCodec, List.length_cons] at hlen
      simp only [Server.RegisterCodec, List.foldl_cons, hfold _ hlen]
    · simp only [hc, if_false, hlow]
      simp [Server.RegisterCodec, List.lookup]

theorem Server.validate_rejects (s : Server) (t : reflectType) (args : Value) (v : Validate)
    (text : Str) (hen : s.opt.EnableValidator = true) (hst : t.isStruct = true)
    (hv : s.validator = some v) (herr : v.Struct args = some text) :
    s.validate t args = .ok (some (error.errorString text)) := by
  simp [Server.validate, hen, hst, hv, herr]

/-- C4: for every server with validation enabled (the option set and the
validator installed) and every request that selects a codec, names a
registered method and decodes into a struct argument, if the validator returns
an error for the argument then `ServeHTTP` answers with status 400 and the
envelope whose msg is the text of that error, and the bound method is never
called: the run does not depend on the method and records no call. -/
theorem Server.ServeHTTP_validation_failure (lib : Lib) (s : Server) (w : ResponseWriter)
    (r : Request) (codec : Codec) (method : Str) (tr : Str × Str) (svc : service)
    (ms : serviceMethod) (args : Value) (v : Validate) (text : Str)
    (hsel : s.selectCodec lib r = .ok (some codec))
    (hm : (codec.NewRequest r).Method = .ok method)
    (htr : s.newTrace method = .ok tr)
    (hget : s.services.get method = .ok (svc, ms))
    (hread : (codec.NewRequest r).ReadRequest lib ms.argsType = .ok args)
    (hen : s.opt.EnableValidator = true) (hst : ms.argsType.isStruct = true)
    (hv : s.validator = some v) (herr : v.Struct args = some text) :
    (s.ServeHTTP lib w r).w = (codec.NewRequest r).WriteError w 400 (error.errorString text)
    ∧ (s.ServeHTTP lib ResponseWriter.fresh r).w.Code = 400
    ∧ json.Unmarshal (s.ServeHTTP lib ResponseWriter.fresh r).w.Body
        = some { Code := 400, Msg := text, Data := Value.nil }
    ∧ (s.ServeHTTP lib w r).panic = none
    ∧ (∀ (m : Str) (a : Value), Event.Call m a ∉ (s.ServeHTTP lib w r).events)
    ∧ (s.ServeHTTP lib w r).events
        = [Event.traceNew tr.1 tr.2, Event.get method,
            Event.traceLazyPrintf ("validate request error:".toList ++ text),
            Event.traceSetError, Event.traceFinish] := by
  have hval := Server.validate_rejects s ms.argsType args v text hen hst hv herr
  have hrun : ∀ w, s.ServeHTTP lib w r
      = { w := (codec.NewRequest r).WriteError w 400 (error.errorString text)
          events := [Event.traceNew tr.1 tr.2, Event.get method,
            Event.traceLazyPrintf ("validate request error:".toList
              ++ (error.errorString text).Error),
            Event.traceSetError, Event.traceFinish]
          panic := none } := by
    intro w
    rw [Server.ServeHTTP_of_codec lib s w r codec hsel]
    exact Server.serveWith_invalid lib s w r codec method tr svc ms args _ hm htr hget hread hval
  refine ⟨by rw [hrun], ?_, ?_, by rw [hrun], ?_, by rw [hrun]; rfl⟩
  · rw [hrun]
    simp only [CodecRequest.WriteError]
    rw [ResponseWriter.Code_WriteError _ 400 (error.errorString text)
      (codecRequest.WriteError.panic_errorString _ 400 text (by decide) (by decide))]
    rfl
  · rw [hrun]
    simp only [CodecRequest.WriteError]
    rw [ResponseWriter.Body_WriteError _ 400 (error.errorString text)
      (codecRequest.WriteError.panic_errorString _ 400 text (by decide) (by decide)),
      json.Unmarshal_Marshal]
    rfl
  · intro m a
    rw [hrun]
    simp

/-- The server of `TestServerValidate` and its request with an empty `Body`:
the hypotheses of C4 hold there, the status is 400 and the run ends after the
validation without a call. -/
theorem Server.ServeHTTP_validation_failure_witness :
    (server_test.rpcServer.ServeHTTP server_test.lib ResponseWriter.fresh
      (httptest.NewRequest "/echo/Echo".toList [] "\x7b\"Body\":\"\"\x7d".toList)).w.Code = 400
    ∧ (server_test.rpcServer.ServeHTTP server_test.lib ResponseWriter.fresh
        (httptest.NewRequest "/echo/Echo".toList [] "\x7b\"Body\":\"\"\x7d".toList)).events
      = [Event.traceNew "echo".toList "Echo".toList, Event.get "echo.Echo".toList,
          Event.traceLazyPrintf ("validate request error:".toList
            ++ ("Key: 'EchoRequest.Body' Error:Field validation for 'Body' failed on the "
              ++ "'required' tag").toList),
          Event.traceSetError, Event.traceFinish] :=
  have h := Server.ServeHTTP_validation_failure server_test.lib server_test.rpcServer
    ResponseWriter.fresh
    (httptest.NewRequest "/echo/Echo".toList [] "\x7b\"Body\":\"\"\x7d".toList)
    Codec.JSONCodec "echo.Echo".toList ("echo".toList, "Echo".toList) server_test.echoService
    { argsType := { isStruct := true }, method := server_test.Echo }
    (Value.object [("Body".toList, Value.string [])]) server_test.validator
    ("Key: 'EchoRequest.Body' Error:Field validation for 'Body' failed on the "
      ++ "'required' tag").toList
    rfl rfl rfl rfl rfl rfl rfl rfl rfl
  ⟨h.2.1, h.2.2.2.2.2⟩

/-- When the error log is set, a panic of the bound method is recovered: one
line goes to the error log and the response is the envelope with code 500 and
the string form of the panic value, whatever the value is. -/
theorem Server.ServeHTTP_recovers (lib : Lib) (s : Server) (w : ResponseWriter) (r : Request)
    (codec : Codec) (method : Str) (tr : Str × Str) (svc : service) (ms : serviceMethod)
    (args : Value) (v : PanicValue) (errorLog : Logger)
    (hsel : s.selectCodec lib r = .ok (some codec))
    (hm : (codec.NewRequest r).Method = .ok method)
    (htr : s.newTrace method = .ok tr)
    (hget : s.services.get method = .ok (svc, ms))
    (hread : (codec.NewRequest r).ReadRequest lib ms.argsType = .ok args)
    (hval : s.validate ms.argsType args = .ok none)
    (hcall : ms.method r args = .panicked v)
    (hlog : s.opt.ErrorLog = some errorLog) :
    (s.ServeHTTP lib w r).panic = none
    ∧ (s.ServeHTTP lib w r).w = (codec.NewRequest r).WriteError w 500 (error.errorString v.format)
    ∧ (s.ServeHTTP lib ResponseWriter.fresh r).w.Code = 500
    ∧ json.Unmarshal (s.ServeHTTP lib ResponseWriter.fresh r).w.Body
        = some { Code := 500, Msg := v.format, Data := Value.nil } := by
  have hrun : ∀ w, s.ServeHTTP lib w r
      = { w := (codec.NewRequest r).WriteError w 500 (error.errorString v.format)
          events := [Event.traceNew tr.1 tr.2, Event.get method, Event.Call method args,
            Event.errorLog ("gozilla: panic serving ".toList ++ r.RemoteAddr
              ++ ": ".toList ++ v.format ++ "\n".toList ++ lib.Stack), Event.traceFinish]
          panic := none } := by
    intro w
    rw [Server.ServeHTTP_of_codec lib s w r codec hsel,
      Server.serveWith_call lib s w r codec method tr svc ms args hm htr hget hread hval]
    simp only [hcall]
    rw [Server.recovered_logged lib s r _ w _ v errorLog hlog]
    rfl
  refine ⟨by rw [hrun], by rw [hrun], ?_, ?_⟩
  · rw [hrun]
    simp only [CodecRequest.WriteError]
    rw [ResponseWriter.Code_WriteError _ 500 (error.errorString v.format)
      (codecRequest.WriteError.panic_errorString _ 500 _ (by decide) (by decide))]
    rfl
  · rw [hrun]
    simp only [CodecRequest.WriteError]
    rw [ResponseWriter.Body_WriteError _ 500 (error.errorString v.format)
      (codecRequest.WriteError.panic_errorString _ 500 _ (by decide) (by decide)),
      json.Unmarshal_Marshal]
    rfl

/-- C5, the code at the failing input: on a server built as the benchmarks
build theirs, `NewServer(new(Options))`, the field `ErrorLog` is nil. When a
bound method panics there, the deferred function recovers the panic and then
calls `Printf` on the nil logger: a nil-pointer panic leaves `ServeHTTP`, and
no status line and no envelope is written (so no status 500). -/
theorem Server.ServeHTTP_panic_escapes_nil_ErrorLog :
    server_test.benchServer.opt.ErrorLog = none
    ∧ (server_test.benchServer.ServeHTTP server_test.lib ResponseWriter.fresh
        (httptest.NewRequest "/echo/Boom".toList [] "\x7b\"Body\":\"x\"\x7d".toList)).panic
        = some nilDereference
    ∧ (server_test.benchServer.ServeHTTP server_test.lib ResponseWriter.fresh
        (httptest.NewRequest "/echo/Boom".toList [] "\x7b\"Body\":\"x\"\x7d".toList)).w.calls
        = []
    ∧ (server_test.benchServer.ServeHTTP server_test.lib ResponseWriter.fresh
        (httptest.NewRequest "/echo/Boom".toList [] "\x7b\"Body\":\"x\"\x7d".toList)).events
        = [Event.traceNew "echo".toList "Boom".toList, Event.get "echo.Boom".toList,
            Event.Call "echo.Boom".toList (Value.object [("Body".toList, Value.string "x".toList)]),
            Event.traceFinish] :=
  ⟨rfl, rfl, rfl, rfl⟩

/-- C10, the code at the failing input: for the path "/a.b/c" `Method()`
succeeds with "a.b.c", which splits on "." into three parts, so `newTrace`
panics with "bad method"; the recovery guard is not yet installed, the panic
leaves `ServeHTTP` (here on the example server, whose error log is set) and
nothing is written. -/
theorem Server.newTrace_panics_on_dotted_segment :
    codecRequest.Method { Request := httptest.NewRequest "/a.b/c".toList [] [] }
      = .ok "a.b.c".toList
    ∧ strings.Split "a.b.c".toList '.' = ["a".toList, "b".toList, "c".toList]
    ∧ helloworld.main.newTrace "a.b.c".toList = .error (PanicValue.string "bad method".toList)
    ∧ (helloworld.main.ServeHTTP helloworld.lib ResponseWriter.fresh
        (httptest.NewRequest "/a.b/c".toList "application/json".toList [])).panic
        = some (PanicValue.string "bad method".toList)
    ∧ (helloworld.main.ServeHTTP helloworld.lib ResponseWriter.fresh
        (httptest.NewRequest "/a.b/c".toList "application/json".toList [])).w.calls = []
    ∧ (helloworld.main.ServeHTTP helloworld.lib ResponseWriter.fresh
        (httptest.NewRequest "/a.b/c".toList "application/json".toList [])).events = [] :=
  ⟨rfl, rfl, rfl, rfl, rfl, rfl⟩

/-- C7: for every reply value `x`, `WriteResponse` sets the JSON content type
and writes, in one write and without any `WriteHeader`, the JSON encoding of
the envelope with code 200, empty msg and data `x`, followed by a newline; on
a fresh writer the status is 200, and decoding the body gives back the
envelope with code 200 and the data `x`. The example server answers `Hello`
with the bytes of Example 2. -/
theorem codecRequest.WriteResponse_roundtrip (r : codecRequest) (w : ResponseWriter)
    (x : Value) :
    (r.WriteResponse w x).calls = w.calls ++
      [Call.HeaderSet "Content-Type".toList "application/json".toList,
        Call.Write (json.Marshal { Code := 200, Msg := [], Data := x } ++ ['\n'])]
    ∧ (r.WriteResponse ResponseWriter.fresh x).Code = 200
    ∧ (r.WriteResponse ResponseWriter.fresh x).Body
        = json.Marshal { Code := 200, Msg := [], Data := x } ++ ['\n']
    ∧ json.Unmarshal (r.WriteResponse ResponseWriter.fresh x).Body
        = some { Code := 200, Msg := [], Data := x }
    ∧ (∀ rep : reply, json.Unmarshal (r.WriteResponse ResponseWriter.fresh x).Body = some rep →
        rep.Code = 200 ∧ rep.Msg = [] ∧ rep.Data = x)
    ∧ (helloworld.main.ServeHTTP helloworld.lib ResponseWriter.fresh
        (httptest.NewRequest "/hello/Hello".toList "application/json".toList
          "\x7b\"Name\":\"world\"\x7d".toList)).w.Body
        = "\x7b\"code\":200,\"msg\":\"\",\"data\":\x7b\"Reply\":\"hello world\"\x7d\x7d\n".toList := by
  have hbody := ResponseWriter.Body_WriteResponse r x
  have hdec : json.Unmarshal (r.WriteResponse ResponseWriter.fresh x).Body
      = some { Code := 200, Msg := [], Data := x } := by
    rw [hbody, json.Unmarshal_Marshal]
  refine ⟨ResponseWriter.calls_WriteResponse r w x, ResponseWriter.Code_WriteResponse r x, hbody,
    hdec, ?_, rfl⟩
  intro rep hrep
  rw [hdec] at hrep
  cases hrep
  exact ⟨rfl, rfl, rfl⟩

theorem ResponseWriter.status_HeaderSet (w : ResponseWriter) (key value : Str) :
    (w.HeaderSet key value).calls.filterMap Call.status? = w.calls.filterMap Call.status? := by
  simp [ResponseWriter.HeaderSet, Call.status?]

theorem ResponseWriter.Body_HeaderSet (w : ResponseWriter) (key value : Str) :
    (w.HeaderSet key value).Body = w.Body := by
  simp [ResponseWriter.HeaderSet, ResponseWriter.Body, Call.bytes]

theorem codecRequest.WriteError.panic_out_of_range (w : ResponseWriter) (s : Int) (e : error)
    (hw : w.calls.filterMap Call.status? = [])
    (h : (codecRequest.WriteError.rep s e).Code < 100 ∨ 999 < (codecRequest.WriteError.rep s e).Code) :
    codecRequest.WriteError.panic w s e
      = some (PanicValue.string ("invalid WriteHeader code ".toList
          ++ strconv.Itoa (codecRequest.WriteError.rep s e).Code)) := by
  have hwrote : (w.HeaderSet "Content-Type".toList "application/json".toList).wroteHeader
      = false := by
    simp [ResponseWriter.wroteHeader, ResponseWriter.status_HeaderSet, hw]
  have hc : (codecRequest.WriteError.rep s e).Code < 100
      ∨ (codecRequest.WriteError.rep s e).Code > 999 := by omega
  simp only [codecRequest.WriteError.panic, ResponseWriter.WriteHeader.panic, hwrote,
    checkWriteHeaderCode, hc, if_true, Bool.false_eq_true, if_false]

theorem CodecRequest.Body_WriteError_promoted (c : CodecRequest) (w : ResponseWriter)
    (status : Int) (err : error) (hw : w.Body = [])
    (hp : codecRequest.WriteError.panic w status err = none) :
    (c.WriteError w status err).Body
      = json.Marshal (codecRequest.WriteError.rep status err) ++ ['\n'] := by
  simp only [CodecRequest.WriteError]
  rw [ResponseWriter.Body_WriteError_of _ _ _ _ hp, hw, List.nil_append]

theorem CodecRequest.Code_WriteError_promoted (c : CodecRequest) (w : ResponseWriter)
    (status : Int) (err : error) (hw : w.calls.filterMap Call.status? = [])
    (hp : codecRequest.WriteError.panic w status err = none) :
    (c.WriteError w status err).Code = (codecRequest.WriteError.rep status err).Code := by
  simp only [CodecRequest.WriteError]
  rw [ResponseWriter.Code_WriteError_of _ _ _ _ hw hp]

theorem CodecRequest.Body_WriteResponse_promoted (c : CodecRequest) (w : ResponseWriter)
    (x : Value) (hw : w.Body = []) :
    (c.WriteResponse w x).Body = json.Marshal { Code := 200, Msg := [], Data := x } ++ ['\n'] := by
  simp only [CodecRequest.WriteResponse]
  rw [ResponseWriter.Body_WriteResponse_of, hw, List.nil_append]

theorem CodecRequest.Code_WriteResponse_promoted (c : CodecRequest) (w : ResponseWriter)
    (x : Value) (hw : w.calls.filterMap Call.status? = []) : (c.WriteResponse w x).Code = 200 := by
  simp only [CodecRequest.WriteResponse]
  rw [ResponseWriter.Code_WriteResponse_of _ _ _ hw]

/-- The envelope of a plain error, written on a writer without a status. -/
theorem CodecRequest.WriteError_plain (c : CodecRequest) (w : ResponseWriter) (status : Int)
    (err : error) (hwB : w.Body = []) (hwC : w.calls.filterMap Call.status? = [])
    (hk : ∃ text, err = error.errorString text) (h1 : 100 ≤ status) (h2 : status ≤ 999) :
    (c.WriteError w status err).Body
      = json.Marshal { Code := status, Msg := err.Error, Data := Value.nil } ++ ['\n']
    ∧ (c.WriteError w status err).Code = status := by
  have hp := codecRequest.WriteError.panic_of_errorString w status err hk h1 h2
  rw [CodecRequest.Body_WriteError_promoted _ _ _ _ hwB hp,
    CodecRequest.Code_WriteError_promoted _ _ _ _ hwC hp,
    codecRequest.WriteError.rep_errorString _ _ hk]
  exact ⟨rfl, rfl⟩

/-- The writer after a `WriteError` that panicked has still no status and no
body, if it had none before. -/
theorem CodecRequest.WriteError_panicked (c : CodecRequest) (w : ResponseWriter) (status : Int)
    (err : error) (v : PanicValue) (hwB : w.Body = [])
    (hwC : w.calls.filterMap Call.status? = [])
    (hp : codecRequest.WriteError.panic w status err = some v) :
    (c.WriteError w status err).Body = []
    ∧ (c.WriteError w status err).calls.filterMap Call.status? = [] := by
  have hcalls := ResponseWriter.calls_WriteError_panic c.codecRequest w status err v hp
  simp only [CodecRequest.WriteError]
  constructor
  · have hb := ResponseWriter.Body_HeaderSet w "Content-Type".toList "application/json".toList
    simp only [ResponseWriter.Body, ResponseWriter.HeaderSet] at hb hwB ⊢
    rw [hcalls, hb, hwB]
  · have hs := ResponseWriter.status_HeaderSet w "Content-Type".toList "application/json".toList
    simp only [ResponseWriter.HeaderSet] at hs
    rw [hcalls, hs, hwC]

/-- C6, the counterexample: the example server answers a request whose
Content-Type is "text/xml" with status 415 and the plain text "rpc:
unrecognized Content-Type: text/xml"; the body is not the encoding of any
envelope and does not decode to one. -/
theorem Server.ServeHTTP_415_is_plain_text :
    (helloworld.main.ServeHTTP helloworld.lib ResponseWriter.fresh
      (httptest.NewRequest "/hello/Hello".toList "text/xml".toList [])).w.Code = 415
    ∧ (helloworld.main.ServeHTTP helloworld.lib ResponseWriter.fresh
      (httptest.NewRequest "/hello/Hello".toList "text/xml".toList [])).w.Body
        = "rpc: unrecognized Content-Type: text/xml".toList
    ∧ json.Unmarshal (helloworld.main.ServeHTTP helloworld.lib ResponseWriter.fresh
      (httptest.NewRequest "/hello/Hello".toList "text/xml".toList [])).w.Body = none
    ∧ ¬ ∃ rep : reply, (helloworld.main.ServeHTTP helloworld.lib ResponseWriter.fresh
      (httptest.NewRequest "/hello/Hello".toList "text/xml".toList [])).w.Body
        = json.Marshal rep ++ ['\n'] := by
  have hbody : (helloworld.main.ServeHTTP helloworld.lib ResponseWriter.fresh
      (httptest.NewRequest "/hello/Hello".toList "text/xml".toList [])).w.Body
        = "rpc: unrecognized Content-Type: text/xml".toList := rfl
  refine ⟨rfl, hbody, rfl, ?_⟩
  rintro ⟨rep, h⟩
  rw [hbody] at h
  simp [json.Marshal, json.encode, reply.toValue] at h

/-- C6, as amended: once a codec is selected, whichever step the request ends
at without a panic leaving `ServeHTTP` (malformed URL 400, unknown method 404,
decode failure 400, validation failure 400, recovered panic 500, returned
error, success 200), the response body is the JSON encoding of the envelope, a
newline after it, and the code of the envelope is the HTTP status of the
response; on failure its msg is the text of the error. For a returned error
that holds when its code (the code of an `*Error` or `*ErrorWithData`, 400
otherwise) lies in 100..999; for a code outside 100..999 the `WriteHeader`
panics, the panic is recovered, and the envelope has code 500 and the msg
"invalid WriteHeader code " followed by the code. A body of that form decodes
to the envelope. A request whose content type selects no codec is answered
with status 415 and the plain text "rpc: unrecognized Content-Type: " followed
by the content type. -/
theorem Server.ServeHTTP_envelope (lib : Lib) (s : Server) (r : Request) (codec : Codec)
    (hsel : s.selectCodec lib r = .ok (some codec)) :
    (∀ err : error, (codec.NewRequest r).Method = .error err →
      (s.ServeHTTP lib ResponseWriter.fresh r).w.Body
        = json.Marshal { Code := 400, Msg := err.Error, Data := Value.nil } ++ ['\n']
      ∧ (s.ServeHTTP lib ResponseWriter.fresh r).w.Code = 400)
    ∧ (∀ (method : Str) (tr : Str × Str) (err : error),
      (codec.NewRequest r).Method = .ok method → s.newTrace method = .ok tr →
      s.services.get method = .error err →
      (s.ServeHTTP lib ResponseWriter.fresh r).w.Body
        = json.Marshal { Code := 404, Msg := err.Error, Data := Value.nil } ++ ['\n']
      ∧ (s.ServeHTTP lib ResponseWriter.fresh r).w.Code = 404)
    ∧ (∀ (method : Str) (tr : Str × Str) (svc : service) (ms : serviceMethod) (err : error),
      (codec.NewRequest r).Method = .ok method → s.newTrace method = .ok tr →
      s.services.get method = .ok (svc, ms) →
      (codec.NewRequest r).ReadRequest lib ms.argsType = .error err →
      (s.ServeHTTP lib ResponseWriter.fresh r).w.Body
        = json.Marshal { Code := 400, Msg := err.Error, Data := Value.nil } ++ ['\n']
      ∧ (s.ServeHTTP lib ResponseWriter.fresh r).w.Code = 400)
    ∧ (∀ (method : Str) (tr : Str × Str) (svc : service) (ms : serviceMethod) (args : Value)
        (err : error),
      (codec.NewRequest r).Method = .ok method → s.newTrace method = .ok tr →
      s.services.get method = .ok (svc, ms) →
      (codec.NewRequest r).ReadRequest lib ms.argsType = .ok args →
      s.validate ms.argsType args = .ok (some err) →
      (s.ServeHTTP lib ResponseWriter.fresh r).w.Body
        = json.Marshal { Code := 400, Msg := err.Error, Data := Value.nil } ++ ['\n']
      ∧ (s.ServeHTTP lib ResponseWriter.fresh r).w.Code = 400)
    ∧ (∀ (method : Str) (tr : Str × Str) (svc : service) (ms : serviceMethod) (args : Value)
        (v : PanicValue) (errorLog : Logger),
      (codec.NewRequest r).Method = .ok method → s.newTrace method = .ok tr →
      s.services.get method = .ok (svc, ms) →
      (codec.NewRequest r).ReadRequest lib ms.argsType = .ok args →
      s.validate ms.argsType args = .ok none →
      ms.method r args = .panicked v → s.opt.ErrorLog = some errorLog →
      (s.ServeHTTP lib ResponseWriter.fresh r).w.Body
        = json.Marshal { Code := 500, Msg := v.format, Data := Value.nil } ++ ['\n']
      ∧ (s.ServeHTTP lib ResponseWriter.fresh r).w.Code = 500)
    ∧ (∀ (method : Str) (tr : Str × Str) (svc : service) (ms : serviceMethod) (args : Value)
        (value : Value) (err : error),
      (codec.NewRequest r).Method = .ok method → s.newTrace method = .ok tr →
      s.services.get method = .ok (svc, ms) →
      (codec.NewRequest r).ReadRequest lib ms.argsType = .ok args →
      s.validate ms.argsType args = .ok none →
      ms.method r args = .returned value (some err) →
      100 ≤ (codecRequest.WriteError.rep 400 err).Code →
      (codecRequest.WriteError.rep 400 err).Code ≤ 999 →
      (s.ServeHTTP lib ResponseWriter.fresh r).w.Body
        = json.Marshal (codecRequest.WriteError.rep 400 err) ++ ['\n']
      ∧ (s.ServeHTTP lib ResponseWriter.fresh r).w.Code
          = (codecRequest.WriteError.rep 400 err).Code
      ∧ (codecRequest.WriteError.rep 400 err).Msg = err.Error)
    ∧ (∀ (method : Str) (tr : Str × Str) (svc : service) (ms : serviceMethod) (args : Value)
        (value : Value) (err : error) (errorLog : Logger),
      (codec.NewRequest r).Method = .ok method → s.newTrace method = .ok tr →
      s.services.get method = .ok (svc, ms) →
      (codec.NewRequest r).ReadRequest lib ms.argsType = .ok args →
      s.validate ms.argsType args = .ok none →
      ms.method r args = .returned value (some err) →
      ((codecRequest.WriteError.rep 400 err).Code < 100
        ∨ 999 < (codecRequest.WriteError.rep 400 err).Code) →
      s.opt.ErrorLog = some errorLog →
      (s.ServeHTTP lib ResponseWriter.fresh r).w.Body
        = json.Marshal
            { Code := 500
              Msg := "invalid WriteHeader code ".toList
                ++ strconv.Itoa (codecRequest.WriteError.rep 400 err).Code
              Data := Value.nil } ++ ['\n']
      ∧ (s.ServeHTTP lib ResponseWriter.fresh r).w.Code = 500)
    ∧ (∀ (method : Str) (tr : Str × Str) (svc : service) (ms : serviceMethod) (args : Value)
        (value : Value),
      (codec.NewRequest r).Method = .ok method → s.newTrace method = .ok tr →
      s.services.get method = .ok (svc, ms) →
      (codec.NewRequest r).ReadRequest lib ms.argsType = .ok args →
      s.validate ms.argsType args = .ok none →
      ms.method r args = .returned value none →
      (s.ServeHTTP lib ResponseWriter.fresh r).w.Body
        = json.Marshal { Code := 200, Msg := [], Data := value } ++ ['\n']
      ∧ (s.ServeHTTP lib ResponseWriter.fresh r).w.Code = 200)
    ∧ ((s.ServeHTTP lib ResponseWriter.fresh r).panic = none →
      ∃ rep : reply, (s.ServeHTTP lib ResponseWriter.fresh r).w.Body = json.Marshal rep ++ ['\n']
        ∧ json.Unmarshal (s.ServeHTTP lib ResponseWriter.fresh r).w.Body = some rep
        ∧ (s.ServeHTTP lib ResponseWriter.fresh r).w.Code = rep.Code)
    ∧ (∀ (s' : Server) (r' : Request), s'.selectCodec lib r' = .error () →
      (s'.ServeHTTP lib ResponseWriter.fresh r').w.Code = 415
      ∧ (s'.ServeHTTP lib ResponseWriter.fresh r').w.Body
          = "rpc: unrecognized Content-Type: ".toList ++ Server.contentType r')
    ∧ (server_test.zeroServer.ServeHTTP server_test.lib ResponseWriter.fresh
        (httptest.NewRequest "/echo/Zero".toList [] "\x7b\"Body\":\"x\"\x7d".toList)).w.Body
        = "\x7b\"code\":500,\"msg\":\"invalid WriteHeader code 0\",\"data\":null\x7d\n".toList
    ∧ (server_test.zeroServer.ServeHTTP server_test.lib ResponseWriter.fresh
        (httptest.NewRequest "/echo/Zero".toList [] "\x7b\"Body\":\"x\"\x7d".toList)).w.Code = 500 := by
  have hS := Server.ServeHTTP_of_codec lib s ResponseWriter.fresh r codec hsel
  have hfresh : ResponseWriter.fresh.calls.filterMap Call.status? = [] := rfl
  have hfreshB : ResponseWriter.fresh.Body = [] := rfl
  have hsniff : (ResponseWriter.fresh.HeaderSet "x-content-type-options".toList
      "nosniff".toList).calls.filterMap Call.status? = [] := rfl
  have hsniffB : (ResponseWriter.fresh.HeaderSet "x-content-type-options".toList
      "nosniff".toList).Body = [] := rfl
  -- the exits
  have e1 : ∀ err : error, (codec.NewRequest r).Method = .error err →
      (s.ServeHTTP lib ResponseWriter.fresh r).w.Body
        = json.Marshal { Code := 400, Msg := err.Error, Data := Value.nil } ++ ['\n']
      ∧ (s.ServeHTTP lib ResponseWriter.fresh r).w.Code = 400 := by
    intro err hm
    have hk : ∃ text, err = error.errorString text := by
      rw [Codec.NewRequest_Method] at hm
      exact ⟨_, codecRequest.Method_error _ _ hm⟩
    rw [hS, Server.serveWith_bad_url lib s _ r codec err hm]
    exact CodecRequest.WriteError_plain (codec.NewRequest r) ResponseWriter.fresh 400 err hfreshB
      hfresh hk (by decide) (by decide)
  have e2 : ∀ (method : Str) (tr : Str × Str) (err : error),
      (codec.NewRequest r).Method = .ok method → s.newTrace method = .ok tr →
      s.services.get method = .error err →
      (s.ServeHTTP lib ResponseWriter.fresh r).w.Body
        = json.Marshal { Code := 404, Msg := err.Error, Data := Value.nil } ++ ['\n']
      ∧ (s.ServeHTTP lib ResponseWriter.fresh r).w.Code = 404 := by
    intro method tr err hm htr hget
    rw [hS, Server.serveWith_not_found lib s _ r codec method tr err hm htr hget]
    exact CodecRequest.WriteError_plain (codec.NewRequest r) ResponseWriter.fresh 404 err hfreshB hfresh
      (serviceMap.get_error _ _ _ hget) (by decide) (by decide)
  have e3 : ∀ (method : Str) (tr : Str × Str) (svc : service) (ms : serviceMethod) (err : error),
      (codec.NewRequest r).Method = .ok method → s.newTrace method = .ok tr →
      s.services.get method = .ok (svc, ms) →
      (codec.NewRequest r).ReadRequest lib ms.argsType = .error err →
      (s.ServeHTTP lib ResponseWriter.fresh r).w.Body
        = json.Marshal { Code := 400, Msg := err.Error, Data := Value.nil } ++ ['\n']
      ∧ (s.ServeHTTP lib ResponseWriter.fresh r).w.Code = 400 := by
    intro method tr svc ms err hm htr hget hread
    rw [hS, Server.serveWith_read_error lib s _ r codec method tr svc ms err hm htr hget hread]
    exact CodecRequest.WriteError_plain (codec.NewRequest r) ResponseWriter.fresh 400 err hfreshB hfresh
      (CodecRequest.ReadRequest_error _ _ _ _ hread) (by decide) (by decide)
  have e4 : ∀ (method : Str) (tr : Str × Str) (svc : service) (ms : serviceMethod) (args : Value)
      (err : error),
      (codec.NewRequest r).Method = .ok method → s.newTrace method = .ok tr →
      s.services.get method = .ok (svc, ms) →
      (codec.NewRequest r).ReadRequest lib ms.argsType = .ok args →
      s.validate ms.argsType args = .ok (some err) →
      (s.ServeHTTP lib ResponseWriter.fresh r).w.Body
        = json.Marshal { Code := 400, Msg := err.Error, Data := Value.nil } ++ ['\n']
      ∧ (s.ServeHTTP lib ResponseWriter.fresh r).w.Code = 400 := by
    intro method tr svc ms args err hm htr hget hread hval
    rw [hS, Server.serveWith_invalid lib s _ r codec method tr svc ms args err hm htr hget hread
      hval]
    exact CodecRequest.WriteError_plain (codec.NewRequest r) ResponseWriter.fresh 400 err hfreshB hfresh
      (Server.validate_error _ _ _ _ hval) (by decide) (by decide)
  have e5 : ∀ (method : Str) (tr : Str × Str) (svc : service) (ms : serviceMethod) (args : Value)
      (v : PanicValue) (errorLog : Logger),
      (codec.NewRequest r).Method = .ok method → s.newTrace method = .ok tr →
      s.services.get method = .ok (svc, ms) →
      (codec.NewRequest r).ReadRequest lib ms.argsType = .ok args →
      s.validate ms.argsType args = .ok none →
      ms.method r args = .panicked v → s.opt.ErrorLog = some errorLog →
      (s.ServeHTTP lib ResponseWriter.fresh r).w.Body
        = json.Marshal { Code := 500, Msg := v.format, Data := Value.nil } ++ ['\n']
      ∧ (s.ServeHTTP lib ResponseWriter.fresh r).w.Code = 500 := by
    intro method tr svc ms args v errorLog hm htr hget hread hval hcall hlog
    rw [hS, Server.serveWith_call lib s _ r codec method tr svc ms args hm htr hget hread hval]
    simp only [hcall]
    rw [Server.recovered_logged lib s r _ _ _ v errorLog hlog]
    exact CodecRequest.WriteError_plain (codec.NewRequest r) ResponseWriter.fresh 500
      (error.errorString v.format) hfreshB hfresh
      ⟨_, rfl⟩ (by decide) (by decide)
  have e6 : ∀ (method : Str) (tr : Str × Str) (svc : service) (ms : serviceMethod) (args : Value)
      (value : Value) (err : error),
      (codec.NewRequest r).Method = .ok method → s.newTrace method = .ok tr →
      s.services.get method = .ok (svc, ms) →
      (codec.NewRequest r).ReadRequest lib ms.argsType = .ok args →
      s.validate ms.argsType args = .ok none →
      ms.method r args = .returned value (some err) →
      100 ≤ (codecRequest.WriteError.rep 400 err).Code →
      (codecRequest.WriteError.rep 400 err).Code ≤ 999 →
      (s.ServeHTTP lib ResponseWriter.fresh r).w.Body
        = json.Marshal (codecRequest.WriteError.rep 400 err) ++ ['\n']
      ∧ (s.ServeHTTP lib ResponseWriter.fresh r).w.Code
          = (codecRequest.WriteError.rep 400 err).Code
      ∧ (codecRequest.WriteError.rep 400 err).Msg = err.Error := by
    intro method tr svc ms args value err hm htr hget hread hval hcall hlo hhi
    have hp := codecRequest.WriteError.panic_code_in_range (ResponseWriter.fresh.HeaderSet
      "x-content-type-options".toList "nosniff".toList) 400 err hlo hhi
    rw [hS, Server.serveWith_call lib s _ r codec method tr svc ms args hm htr hget hread hval]
    simp only [hcall, hp]
    rw [CodecRequest.Body_WriteError_promoted _ _ _ _ hsniffB hp,
      CodecRequest.Code_WriteError_promoted _ _ _ _ hsniff hp]
    refine ⟨rfl, rfl, ?_⟩
    cases err <;> rfl
  have e6b : ∀ (method : Str) (tr : Str × Str) (svc : service) (ms : serviceMethod)
      (args : Value) (value : Value) (err : error) (errorLog : Logger),
      (codec.NewRequest r).Method = .ok method → s.newTrace method = .ok tr →
      s.services.get method = .ok (svc, ms) →
      (codec.NewRequest r).ReadRequest lib ms.argsType = .ok args →
      s.validate ms.argsType args = .ok none →
      ms.method r args = .returned value (some err) →
      ((codecRequest.WriteError.rep 400 err).Code < 100
        ∨ 999 < (codecRequest.WriteError.rep 400 err).Code) →
      s.opt.ErrorLog = some errorLog →
      (s.ServeHTTP lib ResponseWriter.fresh r).w.Body
        = json.Marshal
            { Code := 500
              Msg := "invalid WriteHeader code ".toList
                ++ strconv.Itoa (codecRequest.WriteError.rep 400 err).Code
              Data := Value.nil } ++ ['\n']
      ∧ (s.ServeHTTP lib ResponseWriter.fresh r).w.Code = 500 := by
    intro method tr svc ms args value err errorLog hm htr hget hread hval hcall hout hlog
    have hp := codecRequest.WriteError.panic_out_of_range (ResponseWriter.fresh.HeaderSet
      "x-content-type-options".toList "nosniff".toList) 400 err hsniff hout
    have hw := CodecRequest.WriteError_panicked (codec.NewRequest r) _ 400 err _ hsniffB hsniff hp
    rw [hS, Server.serveWith_call lib s _ r codec method tr svc ms args hm htr hget hread hval]
    simp only [hcall, hp]
    rw [Server.recovered_logged lib s r _ _ _ _ errorLog hlog]
    exact CodecRequest.WriteError_plain (codec.NewRequest r) _ 500 (error.errorString _) hw.1 hw.2
      ⟨_, rfl⟩ (by decide) (by decide)
  have e7 : ∀ (method : Str) (tr : Str × Str) (svc : service) (ms : serviceMethod) (args : Value)
      (value : Value),
      (codec.NewRequest r).Method = .ok method → s.newTrace method = .ok tr →
      s.services.get method = .ok (svc, ms) →
      (codec.NewRequest r).ReadRequest lib ms.argsType = .ok args →
      s.validate ms.argsType args = .ok none →
      ms.method r args = .returned value none →
      (s.ServeHTTP lib ResponseWriter.fresh r).w.Body
        = json.Marshal { Code := 200, Msg := [], Data := value } ++ ['\n']
      ∧ (s.ServeHTTP lib ResponseWriter.fresh r).w.Code = 200 := by
    intro method tr svc ms args value hm htr hget hread hval hcall
    rw [hS, Server.serveWith_call lib s _ r codec method tr svc ms args hm htr hget hread hval]
    simp only [hcall]
    rw [CodecRequest.Body_WriteResponse_promoted _ _ _ hsniffB,
      CodecRequest.Code_WriteResponse_promoted _ _ _ hsniff]
    exact ⟨rfl, rfl⟩
  refine ⟨e1, e2, e3, e4, e5, e6, e6b, e7, ?_, ?_, rfl, rfl⟩
  · -- every run without an escaping panic takes one of the exits
    intro hpanic
    have hex : ∀ rep : reply,
        (s.ServeHTTP lib ResponseWriter.fresh r).w.Body = json.Marshal rep ++ ['\n'] →
        (s.ServeHTTP lib ResponseWriter.fresh r).w.Code = rep.Code →
        ∃ rep : reply, (s.ServeHTTP lib ResponseWriter.fresh r).w.Body = json.Marshal rep ++ ['\n']
          ∧ json.Unmarshal (s.ServeHTTP lib ResponseWriter.fresh r).w.Body = some rep
          ∧ (s.ServeHTTP lib ResponseWriter.fresh r).w.Code = rep.Code := by
      intro rep hb hc
      exact ⟨rep, hb, by rw [hb, json.Unmarshal_Marshal], hc⟩
    cases hm : (codec.NewRequest r).Method with
    | error err => exact hex _ (e1 err hm).1 (e1 err hm).2
    | ok method =>
      cases htr : s.newTrace method with
      | error v =>
        rw [hS, Server.serveWith_bad_method lib s _ r codec method v hm htr] at hpanic
        cases hpanic
      | ok tr =>
        cases hget : s.services.get method with
        | error err => exact hex _ (e2 method tr err hm htr hget).1 (e2 method tr err hm htr hget).2
        | ok found =>
          obtain ⟨svc, ms⟩ := found
          cases hread : (codec.NewRequest r).ReadRequest lib ms.argsType with
          | error err =>
            exact hex _ (e3 method tr svc ms err hm htr hget hread).1
              (e3 method tr svc ms err hm htr hget hread).2
          | ok args =>
            cases hval : s.validate ms.argsType args with
            | error v =>
              rw [hS, Server.serveWith_nil_validator lib s _ r codec method tr svc ms args v hm htr
                hget hread hval] at hpanic
              cases hpanic
            | ok verr =>
              cases verr with
              | some err =>
                exact hex _ (e4 method tr svc ms args err hm htr hget hread hval).1
                  (e4 method tr svc ms args err hm htr hget hread hval).2
              | none =>
                have hrun := Server.serveWith_call lib s ResponseWriter.fresh r codec method tr svc
                  ms args hm htr hget hread hval
                cases hlog : s.opt.ErrorLog with
                | none =>
                  -- without an error log every recovery ends in a panic
                  cases hcall : ms.method r args with
                  | panicked v =>
                    rw [hS, hrun] at hpanic
                    simp only [hcall] at hpanic
                    rw [Server.recovered_nil_ErrorLog lib s r _ _ _ v hlog] at hpanic
                    cases hpanic
                  | returned value rerr =>
                    cases rerr with
                    | none =>
                      exact hex _ (e7 method tr svc ms args value hm htr hget hread hval hcall).1
                        (e7 method tr svc ms args value hm htr hget hread hval hcall).2
                    | some err =>
                      by_cases hin : 100 ≤ (codecRequest.WriteError.rep 400 err).Code
                          ∧ (codecRequest.WriteError.rep 400 err).Code ≤ 999
                      · have h6 := e6 method tr svc ms args value err hm htr hget hread hval hcall
                          hin.1 hin.2
                        exact hex _ h6.1 h6.2.1
                      · have hout : (codecRequest.WriteError.rep 400 err).Code < 100
                            ∨ 999 < (codecRequest.WriteError.rep 400 err).Code := by omega
                        have hp := codecRequest.WriteError.panic_out_of_range
                          (ResponseWriter.fresh.HeaderSet "x-content-type-options".toList
                            "nosniff".toList) 400 err hsniff hout
                        rw [hS, hrun] at hpanic
                        simp only [hcall, hp] at hpanic
                        rw [Server.recovered_nil_ErrorLog lib s r _ _ _ _ hlog] at hpanic
                        cases hpanic
                | some errorLog =>
                  cases hcall : ms.method r args with
                  | panicked v =>
                    have h5 := e5 method tr svc ms args v errorLog hm htr hget hread hval hcall hlog
                    exact hex _ h5.1 h5.2
                  | returned value rerr =>
                    cases rerr with
                    | none =>
                      exact hex _ (e7 method tr svc ms args value hm htr hget hread hval hcall).1
                        (e7 method tr svc ms args value hm htr hget hread hval hcall).2
                    | some err =>
                      by_cases hin : 100 ≤ (codecRequest.WriteError.rep 400 err).Code
                          ∧ (codecRequest.WriteError.rep 400 err).Code ≤ 999
                      · have h6 := e6 method tr svc ms args value err hm htr hget hread hval hcall
                          hin.1 hin.2
                        exact hex _ h6.1 h6.2.1
                      · have hout : (codecRequest.WriteError.rep 400 err).Code < 100
                            ∨ 999 < (codecRequest.WriteError.rep 400 err).Code := by omega
                        have h6 := e6b method tr svc ms args value err errorLog hm htr hget hread
                          hval hcall hout hlog
                        exact hex _ h6.1 h6.2
  · intro s' r' hsel'
    rw [Server.ServeHTTP_unsupported lib s' _ r' hsel']
    exact ⟨ResponseWriter.Code_WriteError_plain _ _ (by decide) (by decide),
      ResponseWriter.Body_WriteError_plain _ _ (by decide) (by decide)⟩

/-- The example server and a call of `HelloErrorWithData`: a codec is
selected, the method returns its error, and the response is the envelope with
the code 440 of the error, its text and its data. -/
theorem Server.ServeHTTP_envelope_witness :
    (helloworld.main.ServeHTTP helloworld.lib ResponseWriter.fresh
      (httptest.NewRequest "/hello/HelloErrorWithData".toList "application/json".toList
        "\x7b\"Name\":\"world\"\x7d".toList)).w.Body
      = json.Marshal
          { Code := 440, Msg := "bad return".toList
            Data := Value.object [("Name".toList, Value.string "world".toList)] } ++ ['\n']
    ∧ (helloworld.main.ServeHTTP helloworld.lib ResponseWriter.fresh
      (httptest.NewRequest "/hello/HelloErrorWithData".toList "application/json".toList
        "\x7b\"Name\":\"world\"\x7d".toList)).w.Code = 440 :=
  have h := (Server.ServeHTTP_envelope helloworld.lib helloworld.main
    (httptest.NewRequest "/hello/HelloErrorWithData".toList "application/json".toList
      "\x7b\"Name\":\"world\"\x7d".toList) Codec.JSONCodec rfl).2.2.2.2.2.1
    "hello.HelloErrorWithData".toList ("hello".toList, "HelloErrorWithData".toList)
    helloworld.HelloService
    { argsType := { isStruct := true }, method := helloworld.HelloErrorWithData }
    (Value.object [("Name".toList, Value.string "world".toList)]) Value.nil
    (NewErrorWithData 440 "bad return".toList
      (Value.object [("Name".toList, Value.string "world".toList)]))
    rfl rfl rfl rfl rfl rfl (by decide) (by decide)
  ⟨h.1, h.2.1⟩

/-! ## log.go: the claims -/

theorem loggingResponse.status_foldl (calls : List Call) (ww : loggingResponse) :
    (calls.foldl loggingResponse.call ww).status
      = ((calls.filterMap Call.header?).getLast?).getD ww.status := by
  induction calls generalizing ww with
  | nil => rfl
  | cons c calls ih =>
    rw [List.foldl_cons, ih]
    cases c with
    | HeaderSet key value => simp [loggingResponse.call, Call.header?]
    | Write p => simp [loggingResponse.call, Call.header?]
    | WriteHeader status =>
      have hf : List.filterMap Call.header? (Call.WriteHeader status :: calls)
          = status :: List.filterMap Call.header? calls := rfl
      rw [hf, List.getLast?_cons]
      simp [loggingResponse.call, loggingResponse.WriteHeader]

/-- The record `logRecord` renders, when it renders one. -/
theorem logger.logRecord_rendered (l : logger) (env : LogEnv) (lr : Gozilla.logRecord)
    (l' : logger) (lr' : Gozilla.logRecord) (h : l.logRecord env lr = (l', some lr')) :
    lr'.Body = (if (compactBody lr.Body).length = 0 then "-".toList else compactBody lr.Body)
    ∧ lr'.Status = (if lr.Status = 0 then 200 else lr.Status)
    ∧ lr'.UserAgent = env.Quote lr.UserAgent
    ∧ lr'.Time = env.Format lr.time "02/Jan/2006:15:04:05 -0700".toList
    ∧ ∃ file, l'.written = l'.written.dropLast ++ [(file, lr')] := by
  unfold logger.logRecord at h
  simp only at h
  split at h
  · cases h
  · rename_i l1 _
    split at h
    · rename_i file _
      simp only [Prod.mk.injEq, Option.some.injEq] at h
      obtain ⟨hl, hlr⟩ := h
      subst hl hlr
      refine ⟨?_, ?_, ?_, ?_, file, by simp⟩
      · by_cases hb : (compactBody lr.Body).length = 0 <;> by_cases hs : lr.Status = 0 <;>
          simp [hb, hs]
      · by_cases hb : (compactBody lr.Body).length = 0 <;> by_cases hs : lr.Status = 0 <;>
          simp [hb, hs]
      · by_cases hb : (compactBody lr.Body).length = 0 <;> by_cases hs : lr.Status = 0 <;>
          simp [hb, hs]
      · by_cases hb : (compactBody lr.Body).length = 0 <;> by_cases hs : lr.Status = 0 <;>
          simp [hb, hs]
    · cases h

/-- C9: for every captured request body `b`, the Body that `logRecord` renders
into the line is `b` with every newline replaced by one space, and "-" when
`b` is empty; so the rendered Body is never empty and holds no newline. The
body of the record is what the inner handler read of the request body. -/
theorem logger.logRecord_Body (l : logger) (env : LogEnv) (lr : Gozilla.logRecord)
    (l' : logger) (lr' : Gozilla.logRecord) (h : l.logRecord env lr = (l', some lr')) :
    compactBody lr.Body = lr.Body.map (fun c => if c = '\n' then ' ' else c)
    ∧ lr'.Body
        = (if lr.Body = [] then "-".toList
          else lr.Body.map (fun c => if c = '\n' then ' ' else c))
    ∧ lr'.Body ≠ []
    ∧ '\n' ∉ lr'.Body
    ∧ (lr.Body = [] → lr'.Body = "-".toList)
    ∧ (∀ (begin done : Nat) (w : ResponseWriter) (r : Request),
        (l.ServeHTTP begin done w r).2.Body = r.Body.take (l.next r).read) := by
  have hcompact : compactBody lr.Body = lr.Body.map (fun c => if c = '\n' then ' ' else c) := rfl
  have hbody := (logger.logRecord_rendered l env lr l' lr' h).1
  have hlen : (compactBody lr.Body).length = 0 ↔ lr.Body = [] := by
    rw [hcompact, List.length_map, List.length_eq_zero]
  have hres : lr'.Body
      = (if lr.Body = [] then "-".toList
        else lr.Body.map (fun c => if c = '\n' then ' ' else c)) := by
    rw [hbody]
    by_cases hb : lr.Body = []
    · simp [hb, compactBody, strings.Replace]
    · have : ¬ (compactBody lr.Body).length = 0 := fun hh => hb (hlen.mp hh)
      rw [if_neg this, if_neg hb, hcompact]
  refine ⟨hcompact, hres, ?_, ?_, ?_, fun _ _ _ _ => rfl⟩
  · rw [hres]
    by_cases hb : lr.Body = []
    · simp [hb]
    · simp [hb]
  · rw [hres]
    by_cases hb : lr.Body = []
    · simp [hb]
    · simp only [hb, if_false, List.mem_map, not_exists, not_and]
      intro c _ hc
      by_cases hn : c = '\n'
      · rw [hn, if_pos rfl] at hc
        exact absurd hc (by decide)
      · rw [if_neg hn] at hc
        exact hn hc
  · intro hb
    rw [hres]
    simp [hb]

/-- A request with a body of two lines, logged: the hypothesis of C9 holds,
and the rendered Body is the one line "a=1 b=2". -/
theorem logger.logRecord_Body_witness :
    (((NewLoggerHandler DefaultLogOptions log_test.quiet).logRecord log_test.env
        ((NewLoggerHandler DefaultLogOptions log_test.quiet).ServeHTTP 0 1 ResponseWriter.fresh
          log_test.request).2).2.getD
      ((NewLoggerHandler DefaultLogOptions log_test.quiet).ServeHTTP 0 1 ResponseWriter.fresh
          log_test.request).2).Body ≠ []
    ∧ (((NewLoggerHandler DefaultLogOptions log_test.quiet).logRecord log_test.env
        ((NewLoggerHandler DefaultLogOptions log_test.quiet).ServeHTTP 0 1 ResponseWriter.fresh
          log_test.request).2).2.getD
      ((NewLoggerHandler DefaultLogOptions log_test.quiet).ServeHTTP 0 1 ResponseWriter.fresh
          log_test.request).2).Body = "a=1 b=2".toList :=
  have h := logger.logRecord_Body (NewLoggerHandler DefaultLogOptions log_test.quiet) log_test.env
    ((NewLoggerHandler DefaultLogOptions log_test.quiet).ServeHTTP 0 1 ResponseWriter.fresh
      log_test.request).2
    ((NewLoggerHandler DefaultLogOptions log_test.quiet).logRecord log_test.env
      ((NewLoggerHandler DefaultLogOptions log_test.quiet).ServeHTTP 0 1 ResponseWriter.fresh
        log_test.request).2).1
    (((NewLoggerHandler DefaultLogOptions log_test.quiet).logRecord log_test.env
        ((NewLoggerHandler DefaultLogOptions log_test.quiet).ServeHTTP 0 1 ResponseWriter.fresh
          log_test.request).2).2.getD
      ((NewLoggerHandler DefaultLogOptions log_test.quiet).ServeHTTP 0 1 ResponseWriter.fresh
          log_test.request).2)
    rfl
  ⟨h.2.2.1, rfl⟩

/-- The status of the record that `logger.ServeHTTP` sends is the argument of
the last `WriteHeader` the inner handler called on the wrapper, 0 when it
called none. -/
theorem logger.ServeHTTP_Status (l : logger) (begin done : Nat) (w : ResponseWriter)
    (r : Request) :
    (l.ServeHTTP begin done w r).2.Status
      = (((l.next r).calls.filterMap Call.header?).getLast?).getD 0 := by
  simp only [logger.ServeHTTP, loggingResponse.Status]
  rw [loggingResponse.status_foldl]
  rfl

/-- C8, the code at the failing inputs: a handler that calls `WriteHeader(500)`
and then `WriteHeader(200)` has written 500 first, and 500 is the status of
the response, but the status in the log line is 200; a handler that writes a
body and then calls `WriteHeader(500)` has sent the status 200, but the status
in the log line is 500. -/
theorem logger.ServeHTTP_Status_not_first :
    (log_test.twice log_test.request).calls.filterMap Call.header? = [500, 200]
    ∧ ((NewLoggerHandler DefaultLogOptions log_test.twice).ServeHTTP 0 1 ResponseWriter.fresh
        log_test.request).1.Code = 500
    ∧ (((NewLoggerHandler DefaultLogOptions log_test.twice).logRecord log_test.env
        ((NewLoggerHandler DefaultLogOptions log_test.twice).ServeHTTP 0 1 ResponseWriter.fresh
          log_test.request).2).2.map (fun lr => lr.Status)) = some 200
    ∧ (((NewLoggerHandler DefaultLogOptions log_test.twice).logRecord log_test.env
        ((NewLoggerHandler DefaultLogOptions log_test.twice).ServeHTTP 0 1 ResponseWriter.fresh
          log_test.request).2).2.map (fun lr => lr.Status)) ≠ some 500
    ∧ ((NewLoggerHandler DefaultLogOptions log_test.late).ServeHTTP 0 1 ResponseWriter.fresh
        log_test.request).1.Code = 200
    ∧ (((NewLoggerHandler DefaultLogOptions log_test.late).logRecord log_test.env
        ((NewLoggerHandler DefaultLogOptions log_test.late).ServeHTTP 0 1 ResponseWriter.fresh
          log_test.request).2).2.map (fun lr => lr.Status)) = some 500 := by
  refine ⟨rfl, rfl, rfl, ?_, rfl, rfl⟩
  decide

end Gozilla
